import Mathlib

/-!
# Verification of the cost-allocation and revenue-ledger core

Shallow embedding of the inventory application's core logic:

* the revenue ledger (`src/lib/revenueService.ts`, re-exported through
  `src/hooks/useAppData.ts`): available-revenue computation, withdrawal
  validation, payment breakdown, purchase/transaction processing;
* the cost-allocation engine: the purchase-form `save` functions (the
  equal-per-unit variant of `part_017`/`App.tsx` and the proportional
  variant of `components/pages/purchases/PurchaseForm.tsx`), the
  `handleRecalculatePrices` action of `InventoryPage.tsx`, and the
  stock-propagation handlers (`PurchasesPage.handleSave`/`onDelete`,
  `SalesPage.handleSave`/`onDelete`, `SaleForm.save`).

Modelling conventions: JavaScript numbers are modelled as exact rationals
(`ℚ`); optional (`?:`) fields as `Option`; `x ?? d` as `Option.getD`;
JS truthiness tests on numbers (`x ? a : b`) as `x ≠ 0` tests; thrown
exceptions as `Except.error`; the non-deterministic `uid()`/`nowIso()`
calls are passed in as explicit `String` arguments.  Presentation-only
fields (names, images, dates, categories) that no computation reads are
omitted from the record types.
-/

namespace NanisInventory

/-- Payment-source classification (`src/types/models.ts`). -/
inductive PaymentSource where
  | external
  | revenue
  | mixed
deriving DecidableEq, Repr

/-- Transaction type (`src/types/models.ts`, transactions schema). -/
inductive TransactionType where
  | income
  | expense
  | fee
  | discount
deriving DecidableEq, Repr

/-- An inventory item (`src/types/models.ts`, numeric/identifier fields). -/
structure InventoryItem where
  id : String
  stock : ℚ
  weightLbs : Option ℚ := none
  costPreShipping : Option ℚ := none
  costPostShipping : Option ℚ := none
  minPrice : Option ℚ := none
  maxPrice : Option ℚ := none
  competitorAPrice : Option ℚ := none
  competitorBPrice : Option ℚ := none
  minRevenue : Option ℚ := none
  maxRevenue : Option ℚ := none
deriving DecidableEq, Repr

/-- One line of a purchase (`src/types/models.ts`). -/
structure PurchaseLine where
  id : String
  itemId : String
  quantity : ℚ
  unitCost : ℚ
  hasSubItems : Bool := false
  subItemsQty : Option ℚ := none
  perUnitTax : Option ℚ := none
  perUnitShippingUS : Option ℚ := none
  perUnitShippingIntl : Option ℚ := none
  unitCostPostShipping : Option ℚ := none
deriving DecidableEq, Repr

/-- A purchase (`src/types/models.ts`). -/
structure Purchase where
  id : String
  lines : List PurchaseLine
  subtotal : ℚ
  tax : ℚ
  shippingUS : ℚ
  shippingIntl : ℚ
  weightLbs : ℚ := 0
  totalUnits : ℚ := 0
  totalCost : ℚ := 0
  revenueUsed : Option ℚ := none
  paymentSource : Option PaymentSource := none
deriving DecidableEq, Repr

/-- One line of a sale (`src/types/models.ts`). -/
structure SaleLine where
  id : String
  itemId : String
  quantity : ℚ
  unitPrice : ℚ
deriving DecidableEq, Repr

/-- A sale (`src/types/models.ts`, fields read by the core). -/
structure Sale where
  id : String
  lines : List SaleLine
  totalAmount : ℚ
deriving DecidableEq, Repr

/-- A business transaction (income/expense/fee/discount). -/
structure Transaction where
  id : String
  type : TransactionType
  amount : ℚ
  description : String := ""
  category : String := ""
  paymentSource : Option PaymentSource := none
  revenueAmount : Option ℚ := none
deriving DecidableEq, Repr

/-- A revenue-withdrawal ledger entry (`src/types/models.ts`). -/
structure RevenueWithdrawal where
  id : String
  amount : ℚ
  reason : String
  withdrawnAt : String := ""
  linkedPurchaseId : Option String := none
  notes : Option String := none
deriving DecidableEq, Repr

/-- The whole-application snapshot (`DB` in `src/types/models.ts`). -/
structure DB where
  items : List InventoryItem
  purchases : List Purchase
  sales : List Sale
  transactions : List Transaction
  revenueWithdrawals : List RevenueWithdrawal
deriving DecidableEq, Repr

/-- Total units contributed by a purchase line:
`l.quantity + (l.hasSubItems ? (l.subItemsQty ?? 0) : 0)`. -/
def lineUnits (l : PurchaseLine) : ℚ :=
  l.quantity + (if l.hasSubItems then l.subItemsQty.getD 0 else 0)

/-- Embeds `totalUnits` of a list of purchase lines (PurchaseForm.totalUnits). -/
def totalUnits (lines : List PurchaseLine) : ℚ :=
  (lines.map lineUnits).sum

/-! ## Revenue ledger engine (`src/lib/revenueService.ts`) -/

/-- Embeds `RevenueService.calculateTotalRevenue`. -/
def calculateTotalRevenue (db : DB) : ℚ :=
  (db.sales.map Sale.totalAmount).sum

/-- Embeds `RevenueService.calculateTotalWithdrawn`. -/
def calculateTotalWithdrawn (db : DB) : ℚ :=
  (db.revenueWithdrawals.map RevenueWithdrawal.amount).sum

/-- Embeds `RevenueService.calculateTotalIncome`. -/
def calculateTotalIncome (db : DB) : ℚ :=
  ((db.transactions.filter (fun t => t.type = TransactionType.income)).map
    Transaction.amount).sum

/-- Embeds `RevenueService.calculateAvailableRevenue`:
`max(0, totalRevenue + totalIncome - totalWithdrawn)`. -/
def calculateAvailableRevenue (db : DB) : ℚ :=
  max 0 (calculateTotalRevenue db + calculateTotalIncome db - calculateTotalWithdrawn db)

/-- Embeds `RevenueService.canWithdrawRevenue`. -/
def canWithdrawRevenue (db : DB) (amount : ℚ) : Bool :=
  if amount ≤ 0 then false
  else decide (amount ≤ calculateAvailableRevenue db)

/-- Embeds `RevenueService.createRevenueWithdrawal`; `uid()`/`nowIso()` are passed in. -/
def createRevenueWithdrawal (newId newTime : String) (amount : ℚ) (reason : String)
    (linkedPurchaseId : Option String) (notes : Option String) : RevenueWithdrawal :=
  { id := newId, amount := amount, reason := reason, withdrawnAt := newTime,
    linkedPurchaseId := linkedPurchaseId, notes := notes }

/-- Result record of `calculatePaymentBreakdown`. -/
structure PaymentBreakdown where
  revenueUsed : ℚ
  externalPayment : ℚ
  paymentSource : PaymentSource
deriving DecidableEq, Repr

/-- Embeds `RevenueService.calculatePaymentBreakdown`. -/
def calculatePaymentBreakdown (totalCost revenueToUse : ℚ) : PaymentBreakdown :=
  let clampedRevenueUsed := max 0 (min revenueToUse totalCost)
  let externalPayment := totalCost - clampedRevenueUsed
  let paymentSource :=
    if clampedRevenueUsed = 0 then PaymentSource.external
    else if externalPayment = 0 then PaymentSource.revenue
    else PaymentSource.mixed
  { revenueUsed := clampedRevenueUsed,
    externalPayment := externalPayment,
    paymentSource := paymentSource }

/-- Result record of `processPurchaseWithRevenue`. -/
structure PurchaseRevenueResult where
  updatedDb : DB
  withdrawal : Option RevenueWithdrawal
  paymentBreakdown : PaymentBreakdown
deriving DecidableEq, Repr

/-- Embeds `RevenueService.processPurchaseWithRevenue`; the thrown
`Error('Insufficient revenue available for withdrawal')` is an `Except.error`. -/
def processPurchaseWithRevenue (newId newTime : String) (db : DB) (purchase : Purchase)
    (revenueToUse : ℚ) (withdrawalReason : String) (withdrawalNotes : Option String) :
    Except String PurchaseRevenueResult :=
  if canWithdrawRevenue db revenueToUse then
    let paymentBreakdown := calculatePaymentBreakdown purchase.totalCost revenueToUse
    let withdrawal : Option RevenueWithdrawal :=
      if 0 < paymentBreakdown.revenueUsed then
        some (createRevenueWithdrawal newId newTime paymentBreakdown.revenueUsed
          withdrawalReason (some purchase.id) withdrawalNotes)
      else none
    let updatedWithdrawals :=
      match withdrawal with
      | some w => db.revenueWithdrawals ++ [w]
      | none => db.revenueWithdrawals
    let updatedPurchase : Purchase :=
      { purchase with
        revenueUsed := some paymentBreakdown.revenueUsed,
        paymentSource := some paymentBreakdown.paymentSource }
    let updatedPurchases :=
      db.purchases.map (fun p => if p.id = purchase.id then updatedPurchase else p)
    Except.ok
      { updatedDb :=
          { db with purchases := updatedPurchases, revenueWithdrawals := updatedWithdrawals },
        withdrawal := withdrawal,
        paymentBreakdown := paymentBreakdown }
  else
    Except.error "Insufficient revenue available for withdrawal"

/-- Result record of `processTransactionWithRevenue`. -/
structure TransactionRevenueResult where
  updatedDb : DB
  withdrawals : List RevenueWithdrawal
  error : Option String := none
deriving DecidableEq, Repr

/-- The revenue portion a transaction withdraws: `amount` when paid from
revenue, `revenueAmount` when mixed (the JS test
`paymentSource === 'mixed' && transaction.revenueAmount` treats a zero or
missing `revenueAmount` as falsy), otherwise `0`. -/
def transactionRevenueToWithdraw (t : Transaction) : ℚ :=
  if t.paymentSource = some PaymentSource.revenue then t.amount
  else if t.paymentSource = some PaymentSource.mixed then
    match t.revenueAmount with
    | some ra => if ra = 0 then 0 else ra
    | none => 0
  else 0

/-- Embeds `RevenueService.processTransactionWithRevenue`; the error string's
interpolated amounts are elided. -/
def processTransactionWithRevenue (newId newTime : String) (db : DB) (t : Transaction) :
    TransactionRevenueResult :=
  if t.type = TransactionType.income then
    { updatedDb := db, withdrawals := [] }
  else
    let revenueToWithdraw := transactionRevenueToWithdraw t
    if 0 < revenueToWithdraw then
      if canWithdrawRevenue db revenueToWithdraw then
        let w := createRevenueWithdrawal newId newTime revenueToWithdraw
          ("Transaction: " ++ t.description) none (some t.category)
        { updatedDb := { db with revenueWithdrawals := db.revenueWithdrawals ++ [w] },
          withdrawals := [w] }
      else
        { updatedDb := db, withdrawals := [],
          error := some "Insufficient revenue available." }
    else
      { updatedDb := db, withdrawals := [] }

/-! ## Cost-allocation engine -/

/-- Rounding up to a whole dollar amount: `Math.ceil` on a rational. -/
def ceilQ (q : ℚ) : ℚ := ((⌈q⌉ : ℤ) : ℚ)

/-- The weight the allocation code looks up for a line's item:
`items.find(item => item.id === itemId)?.weightLbs ?? 0`. -/
def itemWeight (items : List InventoryItem) (itemId : String) : ℚ :=
  (((items.find? (fun it => it.id = itemId)).bind InventoryItem.weightLbs).getD 0)

/-- Total actual weight of a purchase:
`Σ itemWeight × lineUnits` over its lines. -/
def purchaseTotalWeight (items : List InventoryItem) (lines : List PurchaseLine) : ℚ :=
  (lines.map (fun l => itemWeight items l.itemId * lineUnits l)).sum

/-- Line enrichment of the `part_017`/`App.tsx` purchase-form `save`:
tax, US shipping and international shipping are all distributed equally
per unit (`units ? tax / units : 0` etc.). -/
def enrichLinesEqual (lines : List PurchaseLine) (tax shipUS shipIntl : ℚ) :
    List PurchaseLine :=
  let units := totalUnits lines
  let perUnitTax := if units = 0 then 0 else tax / units
  let perUnitUS := if units = 0 then 0 else shipUS / units
  let perUnitIntl := if units = 0 then 0 else shipIntl / units
  lines.map fun l =>
    { l with
      perUnitTax := some perUnitTax,
      perUnitShippingUS := some perUnitUS,
      perUnitShippingIntl := some perUnitIntl,
      unitCostPostShipping := some (l.unitCost + perUnitTax + perUnitUS + perUnitIntl) }

/-- Line enrichment shared by `PurchaseForm.tsx`'s `save` and
`InventoryPage.handleRecalculatePrices`: tax proportional to the line's
cost share of subtotal, US shipping equal per unit, international
shipping proportional to the line's share of total weight. -/
def enrichLinesProportional (items : List InventoryItem) (lines : List PurchaseLine)
    (tax shipUS shipIntl subtotal : ℚ) : List PurchaseLine :=
  let units := totalUnits lines
  let totalWeight := purchaseTotalWeight items lines
  lines.map fun l =>
    let w := itemWeight items l.itemId
    let u := lineUnits l
    let lineWeight := w * u
    let lineCost := l.quantity * l.unitCost
    let perUnitTax := if 0 < subtotal then (tax * lineCost) / (subtotal * l.quantity) else 0
    let perUnitShippingUS := if 0 < shipUS ∧ units ≠ 0 then shipUS / units else 0
    let weightRatio := if 0 < totalWeight then lineWeight / totalWeight else 0
    let perUnitShippingIntl := if 0 < u then (shipIntl * weightRatio) / u else 0
    { l with
      perUnitTax := some perUnitTax,
      perUnitShippingUS := some perUnitShippingUS,
      perUnitShippingIntl := some perUnitShippingIntl,
      unitCostPostShipping :=
        some (l.unitCost + perUnitTax + perUnitShippingUS + perUnitShippingIntl) }

/-- The landed cost the item updates read from an enriched line:
`l.unitCostPostShipping ?? l.unitCost`. -/
def lineCostPost (l : PurchaseLine) : ℚ :=
  l.unitCostPostShipping.getD l.unitCost

/-- Item update of `PurchaseForm.tsx`'s quantity-changed branch: add the
line's units to stock and re-derive `ceil(cost+5)` / `ceil(cost+10)`
pricing. -/
def applyLineToItemQty (l : PurchaseLine) (it : InventoryItem) : InventoryItem :=
  let unitsLine := lineUnits l
  let nextStock := it.stock + unitsLine
  let costPost := lineCostPost l
  let autoMin := ceilQ (costPost + 5)
  let autoMax := ceilQ (costPost + 10)
  { it with
    stock := nextStock,
    costPreShipping := some l.unitCost,
    costPostShipping := some costPost,
    minPrice := some autoMin,
    maxPrice := some autoMax,
    minRevenue := some (autoMin - costPost),
    maxRevenue := some (autoMax - costPost) }

/-- Item update of the cost-only (`shipping/tax-only edits`) branch of
both purchase forms: same pricing, stock untouched. -/
def applyLineToItemCostOnly (l : PurchaseLine) (it : InventoryItem) : InventoryItem :=
  let costPost := lineCostPost l
  let autoMin := ceilQ (costPost + 5)
  let autoMax := ceilQ (costPost + 10)
  { it with
    costPreShipping := some l.unitCost,
    costPostShipping := some costPost,
    minPrice := some autoMin,
    maxPrice := some autoMax,
    minRevenue := some (autoMin - costPost),
    maxRevenue := some (autoMax - costPost) }

/-- Item update of the `part_017`/`App.tsx` quantity-changed branch: an
already-set `maxPrice` is kept (`it.maxPrice ?? avgComp ?? ceil(cost+10)`),
where `avgComp` averages the two competitor prices when both are truthy. -/
def applyLineToItemQty17 (l : PurchaseLine) (it : InventoryItem) : InventoryItem :=
  let unitsLine := lineUnits l
  let nextStock := it.stock + unitsLine
  let costPost := lineCostPost l
  let autoMin := ceilQ (costPost + 5)
  let avgComp : Option ℚ :=
    match it.competitorAPrice, it.competitorBPrice with
    | some a, some b => if a ≠ 0 ∧ b ≠ 0 then some ((a + b) / 2) else it.maxPrice
    | _, _ => it.maxPrice
  let nextMax : ℚ :=
    match it.maxPrice with
    | some m => m
    | none =>
      match avgComp with
      | some v => v
      | none => ceilQ (costPost + 10)
  { it with
    stock := nextStock,
    costPreShipping := some l.unitCost,
    costPostShipping := some costPost,
    minPrice := some autoMin,
    maxPrice := some nextMax,
    minRevenue := some (autoMin - costPost),
    maxRevenue := some (nextMax - costPost) }

/-- Item update inside `handleRecalculatePrices`:
`minPrice = ceil(cost × 1.2)`, `maxPrice = ceil(cost × 1.3)`. -/
def recalcUpdateItem (l : PurchaseLine) (it : InventoryItem) : InventoryItem :=
  let costPost := lineCostPost l
  let autoMin := ceilQ (costPost * (6 / 5))
  let autoMax := ceilQ (costPost * (13 / 10))
  { it with
    costPreShipping := some l.unitCost,
    costPostShipping := some costPost,
    minPrice := some autoMin,
    maxPrice := some autoMax,
    minRevenue := some (autoMin - costPost),
    maxRevenue := some (autoMax - costPost) }

/-- Replace the first element satisfying `p` (the
`findIndex` + index-assignment idiom of the source). -/
def updateFirst (p : α → Bool) (f : α → α) : List α → List α
  | [] => []
  | x :: xs => if p x then f x :: xs else x :: updateFirst p f xs

/-- One iteration of `handleRecalculatePrices`' purchase loop: re-enrich the
purchase's lines against the current item list, then push the new costs into
the first matching item for each line. -/
def recalcPurchase (items : List InventoryItem) (p : Purchase) :
    List InventoryItem × Purchase :=
  let updatedLines :=
    enrichLinesProportional items p.lines p.tax p.shippingUS p.shippingIntl p.subtotal
  let updatedItems :=
    updatedLines.foldl
      (fun acc l => updateFirst (fun it => it.id = l.itemId) (recalcUpdateItem l) acc)
      items
  (updatedItems, { p with lines := updatedLines })

/-- Embeds `InventoryPage.handleRecalculatePrices`: fold `recalcPurchase` over every
purchase, threading the item list, and persist both updated collections. -/
def handleRecalculatePrices (db : DB) : DB :=
  let step :=
    db.purchases.foldl
      (fun (acc : List InventoryItem × List Purchase) p =>
        let r := recalcPurchase acc.1 p
        (r.1, acc.2 ++ [r.2]))
      (db.items, [])
  { db with items := step.1, purchases := step.2 }

/-! ## Purchase form and page handlers (`part_017` / `App.tsx`) -/

/-- Embeds `hasQuantityChanges(oldLines, newLines)`. -/
def hasQuantityChanges (oldLines newLines : List PurchaseLine) : Bool :=
  if oldLines.length ≠ newLines.length then true
  else
    oldLines.any fun oldLine =>
      match newLines.find? (fun nl => nl.itemId = oldLine.itemId) with
      | none => true
      | some newLine => lineUnits oldLine ≠ lineUnits newLine

/-- The purchase form's item updates: for each enriched line, rewrite every
matching item (`itemsUpdated.map`); the quantity branch when
`shouldUpdateInventory`, the cost-only branch otherwise.  `applyQty` is the
quantity-branch body (it differs between the two form variants). -/
def purchaseFormItemsUpdated (applyQty : PurchaseLine → InventoryItem → InventoryItem)
    (items : List InventoryItem) (enriched : List PurchaseLine)
    (shouldUpdateInventory : Bool) : List InventoryItem :=
  if shouldUpdateInventory then
    enriched.foldl
      (fun acc l => acc.map fun it => if it.id = l.itemId then applyQty l it else it)
      items
  else
    enriched.foldl
      (fun acc l =>
        acc.map fun it => if it.id = l.itemId then applyLineToItemCostOnly l it else it)
      items

/-- The mutable state a purchase form holds when `save` fires. -/
structure PurchaseFormState where
  items : List InventoryItem
  lines : List PurchaseLine
  weight : ℚ := 0
  subtotal : ℚ := 0
  tax : ℚ := 0
  shipUS : ℚ := 0
  shipIntl : ℚ := 0
  revenueToUse : ℚ := 0
  withdrawalReason : String := "Business re-investment"
  withdrawalNotes : Option String := none
  initial : Option Purchase := none
deriving Repr

/-- The `Purchase` record built by `save`. -/
def buildPurchase (newPurchaseId : String) (st : PurchaseFormState)
    (enriched : List PurchaseLine) : Purchase :=
  let units := totalUnits st.lines
  let totalCost := st.subtotal + st.tax + st.shipUS + st.shipIntl
  { id := (st.initial.map Purchase.id).getD newPurchaseId,
    lines := enriched,
    subtotal := st.subtotal,
    tax := st.tax,
    shippingUS := st.shipUS,
    shippingIntl := st.shipIntl,
    weightLbs := st.weight,
    totalUnits := units,
    totalCost := totalCost,
    revenueUsed := some st.revenueToUse,
    paymentSource := some (calculatePaymentBreakdown totalCost st.revenueToUse).paymentSource }

/-- Embeds `PurchaseForm.save` of `part_017`/`App.tsx` (equal per-unit allocation,
`maxPrice`-preserving quantity branch).  Returns `none` when validation fails
or `processPurchaseWithRevenue` throws (the component alerts and keeps the
snapshot untouched); otherwise the `(purchase, updatedItems, withdrawals?)`
triple handed to `onSave`. -/
def purchaseFormSave (newPurchaseId newWithdrawalId newTime : String) (db : DB)
    (st : PurchaseFormState) :
    Option (Purchase × List InventoryItem × Option (List RevenueWithdrawal)) :=
  if st.lines = [] then none
  else if st.lines.any (fun l => l.itemId = "") then none
  else
    let enriched := enrichLinesEqual st.lines st.tax st.shipUS st.shipIntl
    let p := buildPurchase newPurchaseId st enriched
    let shouldUpdateInventory :=
      match st.initial with
      | none => true
      | some ini => hasQuantityChanges ini.lines enriched
    let itemsUpdated :=
      purchaseFormItemsUpdated applyLineToItemQty17 st.items enriched shouldUpdateInventory
    if 0 < st.revenueToUse then
      let tempPurchases :=
        if db.purchases.any (fun q => q.id = p.id) then
          db.purchases.map (fun q => if q.id = p.id then p else q)
        else db.purchases ++ [p]
      match processPurchaseWithRevenue newWithdrawalId newTime
          { db with items := itemsUpdated, purchases := tempPurchases }
          p st.revenueToUse st.withdrawalReason st.withdrawalNotes with
      | Except.error _ => none
      | Except.ok result =>
        match result.updatedDb.purchases.find? (fun q => q.id = p.id) with
        | none => none
        | some updatedPurchase =>
          some (updatedPurchase, itemsUpdated, some result.updatedDb.revenueWithdrawals)
    else
      some (p, itemsUpdated, none)

/-- Embeds `PurchasesPage.handleSave`: reverse the stored purchase's units (clamped
at 0), then overwrite/append every item coming back from the form, and store
the purchase and withdrawal list. -/
def purchasesPageHandleSave (db : DB) (purchase : Purchase)
    (updatedItems : List InventoryItem)
    (updatedWithdrawals : Option (List RevenueWithdrawal)) : DB :=
  let itemsWorking :=
    match db.purchases.find? (fun p => p.id = purchase.id) with
    | some ex =>
      ex.lines.foldl
        (fun acc l =>
          acc.map fun it =>
            if it.id = l.itemId then { it with stock := max 0 (it.stock - lineUnits l) }
            else it)
        db.items
    | none => db.items
  let itemsMerged :=
    updatedItems.foldl
      (fun acc ui =>
        if acc.any (fun it => it.id = ui.id) then
          updateFirst (fun it => it.id = ui.id) (fun _ => ui) acc
        else acc ++ [ui])
      itemsWorking
  let nextPurchases :=
    if db.purchases.any (fun p => p.id = purchase.id) then
      db.purchases.map (fun p => if p.id = purchase.id then purchase else p)
    else db.purchases ++ [purchase]
  { db with
    items := itemsMerged,
    purchases := nextPurchases,
    revenueWithdrawals := updatedWithdrawals.getD db.revenueWithdrawals }

/-- The whole purchase-save flow: the form's `save` feeding
`PurchasesPage.handleSave`; on rejection the snapshot is unchanged. -/
def purchaseSaveOp (newPurchaseId newWithdrawalId newTime : String) (db : DB)
    (st : PurchaseFormState) : DB :=
  match purchaseFormSave newPurchaseId newWithdrawalId newTime db st with
  | none => db
  | some (p, itemsUpdated, wds) => purchasesPageHandleSave db p itemsUpdated wds

/-- Embeds `PurchasesPage.onDelete`: subtract the purchase's units from each item,
clamped at 0, and drop the purchase. -/
def purchasesPageOnDelete (db : DB) (purchaseId : String) : DB :=
  match db.purchases.find? (fun x => x.id = purchaseId) with
  | some p =>
    let nextItems :=
      db.items.map fun it =>
        let qty := ((p.lines.filter (fun l => l.itemId = it.id)).map lineUnits).sum
        { it with stock := max 0 (it.stock - qty) }
    { db with
      items := nextItems,
      purchases := db.purchases.filter (fun x => x.id ≠ purchaseId) }
  | none => { db with purchases := db.purchases.filter (fun x => x.id ≠ purchaseId) }

/-! ## Sale form and page handlers (`part_020` / `SalesPage.tsx`) -/

/-- Embeds `SaleForm.save`'s item updates: for each line,
`stock = max(0, stock − quantity)` on every matching item. -/
def saleFormItemsUpdated (items : List InventoryItem) (lines : List SaleLine) :
    List InventoryItem :=
  lines.foldl
    (fun acc l =>
      acc.map fun it =>
        if it.id = l.itemId then { it with stock := max 0 (it.stock - l.quantity) }
        else it)
    items

/-- Embeds `SaleForm.save`: validation (non-empty lines, every line has an item)
followed by the stock clamp; no stock-availability check exists. -/
def saleFormSave (newSaleId : String) (db : DB) (initial : Option Sale)
    (lines : List SaleLine) : Option (Sale × List InventoryItem) :=
  if lines = [] then none
  else if lines.any (fun l => l.itemId = "") then none
  else
    let total := (lines.map (fun l => l.quantity * l.unitPrice)).sum
    let s : Sale :=
      { id := (initial.map Sale.id).getD newSaleId, lines := lines, totalAmount := total }
    some (s, saleFormItemsUpdated db.items lines)

/-- Embeds `SalesPage.handleSave`: restore the stored sale's quantities, then
overwrite every item coming back from the form, and store the sale. -/
def salesPageHandleSave (db : DB) (sale : Sale) (updatedItems : List InventoryItem) : DB :=
  let itemsWorking :=
    match db.sales.find? (fun s => s.id = sale.id) with
    | some ex =>
      ex.lines.foldl
        (fun acc l =>
          acc.map fun it =>
            if it.id = l.itemId then { it with stock := it.stock + l.quantity } else it)
        db.items
    | none => db.items
  let itemsMerged :=
    updatedItems.foldl
      (fun acc ui => acc.map fun it => if it.id = ui.id then ui else it)
      itemsWorking
  let nextSales :=
    if db.sales.any (fun s => s.id = sale.id) then
      db.sales.map (fun s => if s.id = sale.id then sale else s)
    else db.sales ++ [sale]
  { db with items := itemsMerged, sales := nextSales }

/-- The whole sale-save flow: `SaleForm.save` feeding `SalesPage.handleSave`. -/
def saleSaveOp (newSaleId : String) (db : DB) (initial : Option Sale)
    (lines : List SaleLine) : DB :=
  match saleFormSave newSaleId db initial lines with
  | none => db
  | some (s, updatedItems) => salesPageHandleSave db s updatedItems

/-- Embeds `SalesPage.onDelete`: add the sale's quantities back to the items and
drop the sale. -/
def salesPageOnDelete (db : DB) (saleId : String) : DB :=
  match db.sales.find? (fun x => x.id = saleId) with
  | some s =>
    let itemsWorking :=
      s.lines.foldl
        (fun acc l =>
          acc.map fun it =>
            if it.id = l.itemId then { it with stock := it.stock + l.quantity } else it)
        db.items
    { db with items := itemsWorking, sales := db.sales.filter (fun x => x.id ≠ saleId) }
  | none => { db with sales := db.sales.filter (fun x => x.id ≠ saleId) }

/-- Embeds `TransactionsPage.handleSave`: expense/fee transactions paid (partly)
from revenue run `processTransactionWithRevenue` first and abort on its
error; everything else is stored directly. -/
def transactionsPageHandleSave (newId newTime : String) (db : DB) (t : Transaction) :
    Option DB :=
  if t.type ≠ TransactionType.income ∧ t.type ≠ TransactionType.discount ∧
      (t.paymentSource = some PaymentSource.revenue ∨
        t.paymentSource = some PaymentSource.mixed) then
    let r := processTransactionWithRevenue newId newTime db t
    match r.error with
    | some _ => none
    | none =>
      let nextTransactions :=
        if r.updatedDb.transactions.any (fun x => x.id = t.id) then
          r.updatedDb.transactions.map (fun x => if x.id = t.id then t else x)
        else r.updatedDb.transactions ++ [t]
      some { r.updatedDb with transactions := nextTransactions }
  else
    let nextTransactions :=
      if db.transactions.any (fun x => x.id = t.id) then
        db.transactions.map (fun x => if x.id = t.id then t else x)
      else db.transactions ++ [t]
    some { db with transactions := nextTransactions }

/-! ## Operations over a snapshot

The user-triggerable mutations relevant to the invariants: purchase
save/delete, sale save/delete, transaction save.  Each constructor carries
the form input; the ids the environment would generate (`uid()`, `nowIso()`)
are explicit fields. -/

/-- The data a purchase form holds independently of the snapshot: its lines,
any quick-added items, the footer figures and the revenue section.
`initialId` identifies the purchase being edited, if any. -/
structure PurchaseFormInput where
  lines : List PurchaseLine
  quickAdds : List InventoryItem := []
  weight : ℚ := 0
  subtotal : ℚ := 0
  tax : ℚ := 0
  shipUS : ℚ := 0
  shipIntl : ℚ := 0
  revenueToUse : ℚ := 0
  withdrawalReason : String := "Business re-investment"
  withdrawalNotes : Option String := none
  initialId : Option String := none
deriving Repr

/-- Instantiate the form state against a snapshot: the form's item list is
the snapshot's items plus the quick-added ones, and `initial` is the stored
purchase being edited. -/
def mkPurchaseFormState (db : DB) (inp : PurchaseFormInput) : PurchaseFormState :=
  { items := db.items ++ inp.quickAdds,
    lines := inp.lines,
    weight := inp.weight,
    subtotal := inp.subtotal,
    tax := inp.tax,
    shipUS := inp.shipUS,
    shipIntl := inp.shipIntl,
    revenueToUse := inp.revenueToUse,
    withdrawalReason := inp.withdrawalReason,
    withdrawalNotes := inp.withdrawalNotes,
    initial := inp.initialId.bind fun i => db.purchases.find? (fun p => p.id = i) }

/-- A user-level mutation of the snapshot. -/
inductive Op where
  | savePurchase (newPurchaseId newWithdrawalId newTime : String) (inp : PurchaseFormInput)
  | deletePurchase (purchaseId : String)
  | saveSale (newSaleId : String) (initialId : Option String) (lines : List SaleLine)
  | deleteSale (saleId : String)
  | saveTransaction (newId newTime : String) (t : Transaction)

/-- Apply one operation; an operation the UI rejects leaves the snapshot
unchanged. -/
def applyOp (op : Op) (db : DB) : DB :=
  match op with
  | Op.savePurchase a b c inp => purchaseSaveOp a b c db (mkPurchaseFormState db inp)
  | Op.deletePurchase i => purchasesPageOnDelete db i
  | Op.saveSale nid iid lines =>
    saleSaveOp nid db (iid.bind fun i => db.sales.find? (fun s => s.id = i)) lines
  | Op.deleteSale i => salesPageOnDelete db i
  | Op.saveTransaction a b t => (transactionsPageHandleSave a b db t).getD db

/-- Apply a sequence of operations left to right. -/
def applyOps (ops : List Op) (db : DB) : DB :=
  ops.foldl (fun d op => applyOp op d) db

/-! ## Well-formedness

Quantities entered through the forms are unit counts; the invariant claims
are about snapshots whose stored quantities are non-negative. -/

/-- A purchase line with non-negative quantity and sub-item count. -/
def wfPurchaseLine (l : PurchaseLine) : Prop :=
  0 ≤ l.quantity ∧ 0 ≤ l.subItemsQty.getD 0

/-- A sale line with non-negative quantity. -/
def wfSaleLine (l : SaleLine) : Prop :=
  0 ≤ l.quantity

/-- Every item's stock is non-negative. -/
def stocksNonneg (items : List InventoryItem) : Prop :=
  ∀ it ∈ items, 0 ≤ it.stock

/-- Snapshot well-formedness: non-negative stocks and non-negative stored
line quantities. -/
def wfDB (db : DB) : Prop :=
  stocksNonneg db.items ∧
  (∀ p ∈ db.purchases, ∀ l ∈ p.lines, wfPurchaseLine l) ∧
  (∀ s ∈ db.sales, ∀ l ∈ s.lines, wfSaleLine l)

/-- Operation well-formedness: the quantities entered in the form are
non-negative, and quick-added items start with non-negative stock (the
quick-add form creates them at stock 0). -/
def wfOp : Op → Prop
  | Op.savePurchase _ _ _ inp =>
    (∀ l ∈ inp.lines, wfPurchaseLine l) ∧ (∀ it ∈ inp.quickAdds, 0 ≤ it.stock)
  | Op.saveSale _ _ lines => ∀ l ∈ lines, wfSaleLine l
  | _ => True

/-! ## Allocation totals and concrete instances -/

/-- Total tax carried by enriched lines: `Σ perUnitTax × lineUnits`. -/
def perUnitTaxTotal (lines : List PurchaseLine) : ℚ :=
  (lines.map (fun l => l.perUnitTax.getD 0 * lineUnits l)).sum

/-- Total US shipping carried by enriched lines. -/
def perUnitShippingUSTotal (lines : List PurchaseLine) : ℚ :=
  (lines.map (fun l => l.perUnitShippingUS.getD 0 * lineUnits l)).sum

/-- Total international shipping carried by enriched lines. -/
def perUnitShippingIntlTotal (lines : List PurchaseLine) : ℚ :=
  (lines.map (fun l => l.perUnitShippingIntl.getD 0 * lineUnits l)).sum

/-- A weightless item used in the concrete checks. -/
def cexItemA : InventoryItem := { id := "A", stock := 1 }

/-- Two-line purchase input (costs 10 and 30, one unit each): used to
compare the equal and the proportional tax distribution at subtotal 40. -/
def cexTaxLines : List PurchaseLine :=
  [ { id := "l1", itemId := "A", quantity := 1, unitCost := 10 },
    { id := "l2", itemId := "B", quantity := 1, unitCost := 30 } ]

/-- A single-line purchase with one sub-item unit (2 total units), cost 10,
tax 10: feeds the conservation counterexample. -/
def cexSubItemPurchase : Purchase :=
  { id := "P",
    lines := [ { id := "l", itemId := "A", quantity := 1, unitCost := 10,
                 hasSubItems := true, subItemsQty := some 1 } ],
    subtotal := 10, tax := 10, shippingUS := 0, shippingIntl := 0 }

/-- A purchase whose only line lands at cost 12.25 (no tax/shipping). -/
def cexPurchase1225 : Purchase :=
  { id := "P",
    lines := [ { id := "l", itemId := "A", quantity := 1, unitCost := 49 / 4 } ],
    subtotal := 49 / 4, tax := 0, shippingUS := 0, shippingIntl := 0 }

/-- Snapshot holding `cexItemA` and `cexPurchase1225`. -/
def cexDbRecalc : DB :=
  { items := [cexItemA], purchases := [cexPurchase1225], sales := [],
    transactions := [], revenueWithdrawals := [] }

/-- An enriched line whose landed cost is 12.25. -/
def cexLine1225 : PurchaseLine :=
  { id := "l", itemId := "A", quantity := 1, unitCost := 49 / 4,
    unitCostPostShipping := some (49 / 4) }

/-- The original purchase of the edit scenario: 2 units of item A at 10. -/
def cexEditOldPurchase : Purchase :=
  { id := "P",
    lines := [ { id := "l0", itemId := "A", quantity := 2, unitCost := 10 } ],
    subtotal := 20, tax := 0, shippingUS := 0, shippingIntl := 0 }

/-- Snapshot before the edit: item A has stock 2 (entirely from
`cexEditOldPurchase`). -/
def cexDbEdit : DB :=
  { items := [ { id := "A", stock := 2 } ], purchases := [cexEditOldPurchase],
    sales := [], transactions := [], revenueWithdrawals := [] }

/-- The edit: the same line's quantity changed from 2 to 3. -/
def cexEditInput : PurchaseFormInput :=
  { lines := [ { id := "l0", itemId := "A", quantity := 3, unitCost := 10 } ],
    subtotal := 30, initialId := some "P" }

/-- A single line on a weightless item, cost 3, used in the international
shipping fallback check. -/
def cexNoWeightLine : PurchaseLine :=
  { id := "l", itemId := "A", quantity := 1, unitCost := 3 }

/-- A 2-lb item, used to exercise the weight-proportional path. -/
def cexConsItems : List InventoryItem :=
  [ { id := "A", stock := 1, weightLbs := some 2 } ]

/-- One line of one unit at cost 10 on item "A" (subtotal 10). -/
def cexConsLines : List PurchaseLine :=
  [ { id := "l", itemId := "A", quantity := 1, unitCost := 10 } ]

/-- The enriched line the edit scenario's form save produces. -/
def cexEditLineOut : PurchaseLine :=
  { id := "l0", itemId := "A", quantity := 3, unitCost := 10,
    perUnitTax := some 0, perUnitShippingUS := some 0,
    perUnitShippingIntl := some 0, unitCostPostShipping := some 10 }

/-- The purchase the edit scenario's form save produces. -/
def cexEditPurchaseOut : Purchase :=
  { id := "P", lines := [cexEditLineOut], subtotal := 30, tax := 0,
    shippingUS := 0, shippingIntl := 0, weightLbs := 0, totalUnits := 3,
    totalCost := 30, revenueUsed := some 0,
    paymentSource := some PaymentSource.external }

/-- The item list the edit scenario's form save produces: stock 2 + 3 = 5. -/
def cexEditItemsOut : List InventoryItem :=
  [ { id := "A", stock := 5, costPreShipping := some 10,
      costPostShipping := some 10, minPrice := some 15, maxPrice := some 20,
      minRevenue := some 5, maxRevenue := some 10 } ]

/-! ## General lemmas -/

/-- The available revenue is clamped at zero, hence never negative. -/
theorem calculateAvailableRevenue_nonneg (db : DB) :
    0 ≤ calculateAvailableRevenue db :=
  le_max_left 0 _

/-- A successful withdrawal validation bounds the amount by the available
revenue. -/
theorem canWithdrawRevenue_le {db : DB} {a : ℚ}
    (h : canWithdrawRevenue db a = true) : a ≤ calculateAvailableRevenue db := by
  unfold canWithdrawRevenue at h
  by_cases h0 : a ≤ 0
  · rw [if_pos h0] at h
    exact absurd h (by simp)
  · rw [if_neg h0] at h
    exact of_decide_eq_true h

/-- A successful withdrawal validation requires a positive amount. -/
theorem canWithdrawRevenue_pos {db : DB} {a : ℚ}
    (h : canWithdrawRevenue db a = true) : 0 < a := by
  unfold canWithdrawRevenue at h
  by_cases h0 : a ≤ 0
  · rw [if_pos h0] at h
    exact absurd h (by simp)
  · exact lt_of_not_le h0

/-- An amount above the available revenue fails validation. -/
theorem canWithdrawRevenue_eq_false {db : DB} {a : ℚ}
    (h : calculateAvailableRevenue db < a) : canWithdrawRevenue db a = false := by
  unfold canWithdrawRevenue
  have h0 : ¬ a ≤ 0 :=
    not_le.mpr (lt_of_le_of_lt (calculateAvailableRevenue_nonneg db) h)
  rw [if_neg h0]
  exact decide_eq_false (not_le.mpr h)

/-! ## C8 — payment breakdown -/

/-- C8: for every `totalCost ≥ 0` and every `revenueToUse`,
`calculatePaymentBreakdown` clamps `revenueUsed` to `[0, totalCost]`, pays
the remainder externally, and classifies the payment source as `external`
iff no revenue is used, `revenue` iff nothing is paid externally (with
revenue actually used), and `mixed` otherwise; in particular
`(100, 40) ↦ {40, 60, mixed}`, `(100, 0) ↦ external`, and `(100, 150)`
clamps to `{100, 0, revenue}`. -/
theorem calculatePaymentBreakdown_spec (totalCost revenueToUse : ℚ)
    (htc : 0 ≤ totalCost) :
    (calculatePaymentBreakdown totalCost revenueToUse).revenueUsed
        = max 0 (min revenueToUse totalCost) ∧
    (calculatePaymentBreakdown totalCost revenueToUse).externalPayment
        = totalCost - (calculatePaymentBreakdown totalCost revenueToUse).revenueUsed ∧
    ((calculatePaymentBreakdown totalCost revenueToUse).paymentSource = PaymentSource.external
        ↔ (calculatePaymentBreakdown totalCost revenueToUse).revenueUsed = 0) ∧
    ((calculatePaymentBreakdown totalCost revenueToUse).paymentSource = PaymentSource.revenue
        ↔ (calculatePaymentBreakdown totalCost revenueToUse).externalPayment = 0 ∧
          0 < (calculatePaymentBreakdown totalCost revenueToUse).revenueUsed) ∧
    ((calculatePaymentBreakdown totalCost revenueToUse).paymentSource = PaymentSource.mixed
        ↔ (calculatePaymentBreakdown totalCost revenueToUse).revenueUsed ≠ 0 ∧
          (calculatePaymentBreakdown totalCost revenueToUse).externalPayment ≠ 0) ∧
    calculatePaymentBreakdown 100 40
        = { revenueUsed := 40, externalPayment := 60, paymentSource := PaymentSource.mixed } ∧
    (calculatePaymentBreakdown 100 0).paymentSource = PaymentSource.external ∧
    calculatePaymentBreakdown 100 150
        = { revenueUsed := 100, externalPayment := 0, paymentSource := PaymentSource.revenue } := by
  have hpb : ∀ tc r : ℚ, calculatePaymentBreakdown tc r
      = { revenueUsed := max 0 (min r tc),
          externalPayment := tc - max 0 (min r tc),
          paymentSource :=
            if max 0 (min r tc) = 0 then PaymentSource.external
            else if tc - max 0 (min r tc) = 0 then PaymentSource.revenue
            else PaymentSource.mixed } := fun _ _ => rfl
  refine ⟨rfl, rfl, ?_, ?_, ?_, ?_, ?_, ?_⟩
  · rw [hpb]
    split_ifs with h1 h2 <;> simp_all
  · rw [hpb]
    split_ifs with h1 h2 <;> simp_all
  · rw [hpb]
    split_ifs with h1 h2 <;> simp_all
  · rw [hpb]; norm_num
  · rw [hpb]; norm_num
  · rw [hpb]; norm_num

/-- Witness for C8 at `(100, 40)`. -/
theorem calculatePaymentBreakdown_spec_witness :
    calculatePaymentBreakdown 100 40
      = { revenueUsed := 40, externalPayment := 60, paymentSource := PaymentSource.mixed } :=
  (calculatePaymentBreakdown_spec 100 40 (by norm_num)).2.2.2.2.2.1

/-! ## C5 — insufficient funds reject without state change -/

/-- C5: asking `processPurchaseWithRevenue` for more revenue than is
available throws the insufficient-funds error (so no updated snapshot is
produced and the caller keeps the old one), and an expense/fee transaction
whose revenue portion exceeds availability makes
`processTransactionWithRevenue` return the snapshot unchanged together with
an error and no withdrawals. -/
theorem insufficient_revenue_rejected
    (newId newTime : String) (db : DB) (p : Purchase) (revenueToUse : ℚ)
    (reason : String) (notes : Option String) (t : Transaction)
    (hp : calculateAvailableRevenue db < revenueToUse)
    (hti : t.type ≠ TransactionType.income)
    (ht : calculateAvailableRevenue db < transactionRevenueToWithdraw t) :
    processPurchaseWithRevenue newId newTime db p revenueToUse reason notes
        = Except.error "Insufficient revenue available for withdrawal" ∧
    (processTransactionWithRevenue newId newTime db t).updatedDb = db ∧
    (processTransactionWithRevenue newId newTime db t).withdrawals = [] ∧
    (processTransactionWithRevenue newId newTime db t).error.isSome = true := by
  have hcw := canWithdrawRevenue_eq_false hp
  have hcwt := canWithdrawRevenue_eq_false ht
  have htpos : 0 < transactionRevenueToWithdraw t :=
    lt_of_le_of_lt (calculateAvailableRevenue_nonneg db) ht
  constructor
  · unfold processPurchaseWithRevenue
    rw [hcw]
    simp
  · unfold processTransactionWithRevenue
    rw [if_neg hti, if_pos htpos, hcwt]
    simp

/-- Witness for C5: an empty ledger cannot fund a 5-unit purchase nor a
revenue-paid expense of 3. -/
theorem insufficient_revenue_rejected_witness :
    processPurchaseWithRevenue "w" "t0"
        { items := [], purchases := [], sales := [], transactions := [],
          revenueWithdrawals := [] }
        { id := "P", lines := [], subtotal := 0, tax := 0, shippingUS := 0,
          shippingIntl := 0 }
        5 "r" none
      = Except.error "Insufficient revenue available for withdrawal" :=
  (insufficient_revenue_rejected "w" "t0"
    { items := [], purchases := [], sales := [], transactions := [],
      revenueWithdrawals := [] }
    { id := "P", lines := [], subtotal := 0, tax := 0, shippingUS := 0,
      shippingIntl := 0 }
    5 "r" none
    { id := "T", type := TransactionType.expense, amount := 3,
      paymentSource := some PaymentSource.revenue }
    (by norm_num [calculateAvailableRevenue, calculateTotalRevenue,
      calculateTotalIncome, calculateTotalWithdrawn])
    (by simp)
    (by norm_num [calculateAvailableRevenue, calculateTotalRevenue,
      calculateTotalIncome, calculateTotalWithdrawn,
      transactionRevenueToWithdraw])).1

/-! ## C10 — sale save clamps stock, never rejects -/

/-- C10: `SaleForm.save` validates only that lines exist and reference an
item (never stock levels), and sets each referenced item's stock to
`max(0, stock − quantity)`; in particular a quantity exceeding the stock is
accepted and clamps the stock to 0. -/
theorem sale_save_clamps_stock
    (newSaleId : String) (db : DB) (initial : Option Sale)
    (lines : List SaleLine) (items : List InventoryItem) (l : SaleLine)
    (hne : lines ≠ []) (hids : ∀ x ∈ lines, x.itemId ≠ "") :
    (saleFormSave newSaleId db initial lines).isSome = true ∧
    saleFormItemsUpdated items [l]
        = items.map (fun it =>
            if it.id = l.itemId then { it with stock := max 0 (it.stock - l.quantity) }
            else it) ∧
    ∀ it : InventoryItem, it.id = l.itemId → it.stock ≤ l.quantity →
      saleFormItemsUpdated [it] [l] = [{ it with stock := 0 }] := by
  refine ⟨?_, rfl, ?_⟩
  · unfold saleFormSave
    rw [if_neg hne]
    have hany : lines.any (fun x => x.itemId = "") = false := by
      rw [List.any_eq_false]
      intro x hx
      simpa using hids x hx
    rw [hany]
    simp
  · intro it hid hle
    unfold saleFormItemsUpdated
    simp only [List.foldl_cons, List.foldl_nil, List.map_cons, List.map_nil,
      if_pos hid]
    have : max 0 (it.stock - l.quantity) = 0 :=
      max_eq_left (sub_nonpos.mpr hle)
    rw [this]

/-- Witness for C10: a sale of 5 units of an item holding 3 is accepted and
leaves the item at stock 0. -/
theorem sale_save_clamps_stock_witness :
    saleFormItemsUpdated [{ id := "A", stock := 3 }]
        [{ id := "s", itemId := "A", quantity := 5, unitPrice := 2 }]
      = [{ id := "A", stock := 0 }] :=
  (sale_save_clamps_stock "S"
    { items := [], purchases := [], sales := [], transactions := [],
      revenueWithdrawals := [] }
    none
    [{ id := "s", itemId := "A", quantity := 5, unitPrice := 2 }]
    [{ id := "A", stock := 3 }]
    { id := "s", itemId := "A", quantity := 5, unitPrice := 2 }
    (by simp) (by simp)).2.2
    { id := "A", stock := 3 } rfl (by norm_num)

/-! ## C1 — tax distribution -/

/-- C1 counterexample: the purchase-form save of `part_017`/`App.tsx`
distributes tax equally per unit.  With lines (1 × $10) and (1 × $30),
subtotal 40 and tax 8, the first line gets `perUnitTax = 4`, not the
claimed `8 × (1×10)/(40×1) = 2`. -/
theorem tax_allocation_counterexample :
    ((enrichLinesEqual cexTaxLines 8 0 0).map (fun l => l.perUnitTax))
        = [some 4, some 4] ∧
    (8 * ((1 : ℚ) * 10)) / ((40 : ℚ) * 1) = 2 ∧
    ¬ ((4 : ℚ) = 2) := by
  refine ⟨?_, by norm_num, by norm_num⟩
  simp [enrichLinesEqual, cexTaxLines, totalUnits, lineUnits]
  norm_num

/-- C1 amended: the proportional formula
`perUnitTax = tax × (quantity × unitCost) / (subtotal × quantity)` holds for
lines enriched with `enrichLinesProportional` (the recalculate action and
the `PurchaseForm.tsx` save) whenever the subtotal is positive; the
`part_017`/`App.tsx` save instead distributes tax equally:
`perUnitTax = tax / totalUnits`. -/
theorem tax_allocation_amended
    (items : List InventoryItem) (lines : List PurchaseLine)
    (tax shipUS shipIntl subtotal : ℚ) (hsub : 0 < subtotal)
    (hunits : totalUnits lines ≠ 0) :
    (∀ l' ∈ enrichLinesProportional items lines tax shipUS shipIntl subtotal,
        l'.perUnitTax
          = some (tax * (l'.quantity * l'.unitCost) / (subtotal * l'.quantity))) ∧
    (∀ l' ∈ enrichLinesEqual lines tax shipUS shipIntl,
        l'.perUnitTax = some (tax / totalUnits lines)) := by
  constructor
  · intro l' hl'
    unfold enrichLinesProportional at hl'
    dsimp only at hl'
    obtain ⟨l, hl, rfl⟩ := List.mem_map.mp hl'
    simp only [if_pos hsub]
  · intro l' hl'
    unfold enrichLinesEqual at hl'
    dsimp only at hl'
    obtain ⟨l, hl, rfl⟩ := List.mem_map.mp hl'
    simp only [if_neg hunits]

/-- Witness for C1 (amended) on the first line of `cexTaxLines`. -/
theorem tax_allocation_amended_witness :
    ((enrichLinesEqual cexTaxLines 8 0 0).get
        ⟨0, by simp [enrichLinesEqual, cexTaxLines]⟩).perUnitTax
      = some (8 / totalUnits cexTaxLines) :=
  (tax_allocation_amended [] cexTaxLines 8 0 0 40 (by norm_num)
      (by simp [totalUnits, cexTaxLines, lineUnits])).2
    _ (List.get_mem _ _ _)

/-! ## C7 — international shipping distribution -/

/-- C7 counterexample: when no item carries weight, the proportional
enrichment used by the recalculate action (and `PurchaseForm.tsx`) does NOT
fall back to equal per-unit distribution — the international shipping is
simply dropped.  One line of one unit on a weightless item with
`shippingIntl = 7` yields `perUnitShippingIntl = 0`, not `7 / 1 = 7`. -/
theorem intl_shipping_counterexample :
    ((enrichLinesProportional [cexItemA] [cexNoWeightLine] 0 0 7 3).map
        (fun l => l.perUnitShippingIntl)) = [some 0] ∧
    (7 : ℚ) / totalUnits [cexNoWeightLine] = 7 ∧
    ¬ (some (0 : ℚ) = some (7 : ℚ)) := by
  refine ⟨?_, ?_, by simp⟩
  · simp [enrichLinesProportional, purchaseTotalWeight, itemWeight, cexItemA,
      cexNoWeightLine, totalUnits, lineUnits]
  · simp [totalUnits, cexNoWeightLine, lineUnits]

/-- C7 amended: under the proportional enrichment (recalculate action and
`PurchaseForm.tsx` save), a purchase with positive total weight allocates
`perUnitShippingIntl = (shippingIntl × lineWeight/totalWeight) / lineUnits`
to every line with units; when the total weight is zero every line gets
`perUnitShippingIntl = 0` (no fallback).  The `part_017`/`App.tsx` save
always distributes equally: `perUnitShippingIntl = shippingIntl /
totalUnits`. -/
theorem intl_shipping_amended
    (items : List InventoryItem) (lines : List PurchaseLine)
    (tax shipUS shipIntl subtotal : ℚ)
    (hW : 0 < purchaseTotalWeight items lines)
    (hunits : totalUnits lines ≠ 0) :
    (∀ l' ∈ enrichLinesProportional items lines tax shipUS shipIntl subtotal,
        0 < lineUnits l' →
        l'.perUnitShippingIntl
          = some (shipIntl * (itemWeight items l'.itemId * lineUnits l' /
              purchaseTotalWeight items lines) / lineUnits l')) ∧
    (∀ (items0 : List InventoryItem) (lines0 : List PurchaseLine)
        (tax0 shipUS0 shipIntl0 subtotal0 : ℚ),
        ¬ 0 < purchaseTotalWeight items0 lines0 →
        ∀ l' ∈ enrichLinesProportional items0 lines0 tax0 shipUS0 shipIntl0 subtotal0,
          l'.perUnitShippingIntl = some 0) ∧
    (∀ l' ∈ enrichLinesEqual lines tax shipUS shipIntl,
        l'.perUnitShippingIntl = some (shipIntl / totalUnits lines)) := by
  refine ⟨?_, ?_, ?_⟩
  · intro l' hl' hu
    unfold enrichLinesProportional at hl'
    dsimp only at hl'
    obtain ⟨l, hl, rfl⟩ := List.mem_map.mp hl'
    have hu' : 0 < lineUnits l := hu
    simp only [if_pos hW, if_pos hu']
    rfl
  · intro items0 lines0 tax0 shipUS0 shipIntl0 subtotal0 hW0 l' hl'
    unfold enrichLinesProportional at hl'
    dsimp only at hl'
    obtain ⟨l, hl, rfl⟩ := List.mem_map.mp hl'
    simp only [if_neg hW0]
    by_cases hu : 0 < lineUnits l
    · rw [if_pos hu]
      simp
    · rw [if_neg hu]
  · intro l' hl'
    unfold enrichLinesEqual at hl'
    dsimp only at hl'
    obtain ⟨l, hl, rfl⟩ := List.mem_map.mp hl'
    simp only [if_neg hunits]

/-- Witness for C7 (amended): a one-line purchase on an item weighing 2 lbs. -/
theorem intl_shipping_amended_witness :
    ((enrichLinesProportional [{ id := "A", stock := 1, weightLbs := some 2 }]
        [cexNoWeightLine] 0 0 7 3).get
          ⟨0, by simp [enrichLinesProportional, cexNoWeightLine]⟩).perUnitShippingIntl
      = some (7 * (itemWeight [{ id := "A", stock := 1, weightLbs := some 2 }]
            ((( enrichLinesProportional [{ id := "A", stock := 1, weightLbs := some 2 }]
              [cexNoWeightLine] 0 0 7 3).get
                ⟨0, by simp [enrichLinesProportional, cexNoWeightLine]⟩).itemId)
            * lineUnits ((enrichLinesProportional [{ id := "A", stock := 1, weightLbs := some 2 }]
              [cexNoWeightLine] 0 0 7 3).get
                ⟨0, by simp [enrichLinesProportional, cexNoWeightLine]⟩)
            / purchaseTotalWeight [{ id := "A", stock := 1, weightLbs := some 2 }]
                [cexNoWeightLine])
          / lineUnits ((enrichLinesProportional [{ id := "A", stock := 1, weightLbs := some 2 }]
              [cexNoWeightLine] 0 0 7 3).get
                ⟨0, by simp [enrichLinesProportional, cexNoWeightLine]⟩)) :=
  (intl_shipping_amended [{ id := "A", stock := 1, weightLbs := some 2 }]
      [cexNoWeightLine] 0 0 7 3
      (by simp [purchaseTotalWeight, itemWeight, cexNoWeightLine, lineUnits])
      (by simp [totalUnits, cexNoWeightLine, lineUnits])).1
    _ (List.get_mem _ _ _)
    (by simp [enrichLinesProportional, cexNoWeightLine, lineUnits])

/-! ## C3 — derived pricing -/

/-- Evaluating a ceiling by bracketing. -/
theorem ceilQ_eq {q : ℚ} {n : ℤ} (h1 : (n : ℚ) - 1 < q) (h2 : q ≤ (n : ℚ)) :
    ceilQ q = (n : ℚ) := by
  unfold ceilQ
  have : ⌈q⌉ = n := Int.ceil_eq_iff.mpr ⟨h1, h2⟩
  rw [this]

/-- C3 counterexample: running the recalculate action on a purchase whose
only line lands at cost 12.25 prices the item at `ceil(12.25 × 1.2) = 15` /
`ceil(12.25 × 1.3) = 16`, not the claimed `ceil(12.25+5) = 18` /
`ceil(12.25+10) = 23`. -/
theorem pricing_recalc_counterexample :
    ((handleRecalculatePrices cexDbRecalc).items.map
        (fun it => (it.costPostShipping, it.minPrice, it.maxPrice)))
      = [(some (49 / 4 : ℚ), some 15, some 16)] ∧
    ceilQ ((49 / 4 : ℚ) + 5) = 18 ∧ ceilQ ((49 / 4 : ℚ) + 10) = 23 ∧
    ¬ ((some (15 : ℚ), some (16 : ℚ)) = (some (18 : ℚ), some (23 : ℚ))) := by
  refine ⟨?_, ?_, ?_, by simp⟩
  · norm_num [handleRecalculatePrices, recalcPurchase, enrichLinesProportional,
      recalcUpdateItem, updateFirst, cexDbRecalc, cexPurchase1225, cexItemA,
      itemWeight, purchaseTotalWeight, totalUnits, lineUnits, lineCostPost, ceilQ]
    refine ⟨?_, ?_⟩
    · rw [show ⌈(147 / 10 : ℚ)⌉ = 15 from Int.ceil_eq_iff.mpr (by norm_num)]
      norm_num
    · rw [show ⌈(637 / 40 : ℚ)⌉ = 16 from Int.ceil_eq_iff.mpr (by norm_num)]
      norm_num
  · exact ceilQ_eq (by norm_num) (by norm_num)
  · exact ceilQ_eq (by norm_num) (by norm_num)

/-- C3 amended: the `ceil(landed+5)` / `ceil(landed+10)` pricing (and the
`minRevenue`/`maxRevenue` differences, with the 12.25 example) holds for the
`PurchaseForm.tsx` save in both branches, unconditionally; the
`part_017`/`App.tsx` quantity-changed branch instead keeps an item's
already-set `maxPrice`, or falls back to the competitor-price average when
`maxPrice` is unset and both competitor prices are set (and non-zero); and
the recalculate action prices at `ceil(landed × 1.2)` / `ceil(landed × 1.3)`. -/
theorem pricing_amended (l : PurchaseLine) (it : InventoryItem) :
    ((applyLineToItemQty l it).minPrice = some (ceilQ (lineCostPost l + 5)) ∧
     (applyLineToItemQty l it).maxPrice = some (ceilQ (lineCostPost l + 10)) ∧
     (applyLineToItemQty l it).minRevenue
        = some (ceilQ (lineCostPost l + 5) - lineCostPost l) ∧
     (applyLineToItemQty l it).maxRevenue
        = some (ceilQ (lineCostPost l + 10) - lineCostPost l)) ∧
    ((applyLineToItemCostOnly l it).minPrice = some (ceilQ (lineCostPost l + 5)) ∧
     (applyLineToItemCostOnly l it).maxPrice = some (ceilQ (lineCostPost l + 10))) ∧
    (∀ m : ℚ, it.maxPrice = some m → (applyLineToItemQty17 l it).maxPrice = some m) ∧
    (∀ a b : ℚ, it.maxPrice = none → it.competitorAPrice = some a →
        it.competitorBPrice = some b → a ≠ 0 → b ≠ 0 →
        (applyLineToItemQty17 l it).maxPrice = some ((a + b) / 2)) ∧
    ((recalcUpdateItem l it).minPrice = some (ceilQ (lineCostPost l * (6 / 5))) ∧
     (recalcUpdateItem l it).maxPrice = some (ceilQ (lineCostPost l * (13 / 10)))) ∧
    ((applyLineToItemQty cexLine1225 cexItemA).minPrice = some 18 ∧
     (applyLineToItemQty cexLine1225 cexItemA).maxPrice = some 23 ∧
     (applyLineToItemQty cexLine1225 cexItemA).minRevenue = some (23 / 4) ∧
     (applyLineToItemQty cexLine1225 cexItemA).maxRevenue = some (43 / 4)) := by
  refine ⟨⟨rfl, rfl, rfl, rfl⟩, ⟨rfl, rfl⟩, ?_, ?_, ⟨rfl, rfl⟩, ?_, ?_, ?_, ?_⟩
  · intro m hmax
    simp [applyLineToItemQty17, hmax]
  · intro a b hnone ha hb hA hB
    simp [applyLineToItemQty17, hnone, ha, hb, hA, hB]
  · show some (ceilQ ((49 / 4 : ℚ) + 5)) = some 18
    rw [ceilQ_eq (n := 18) (by norm_num) (by norm_num)]
    norm_num
  · show some (ceilQ ((49 / 4 : ℚ) + 10)) = some 23
    rw [ceilQ_eq (n := 23) (by norm_num) (by norm_num)]
    norm_num
  · show some (ceilQ ((49 / 4 : ℚ) + 5) - 49 / 4) = some (23 / 4)
    rw [ceilQ_eq (n := 18) (by norm_num) (by norm_num)]
    norm_num
  · show some (ceilQ ((49 / 4 : ℚ) + 10) - 49 / 4) = some (43 / 4)
    rw [ceilQ_eq (n := 23) (by norm_num) (by norm_num)]
    norm_num

/-- Witness for C3 (amended) on an item whose `maxPrice` is set to 40. -/
theorem pricing_amended_witness :
    (applyLineToItemQty17 cexLine1225 { id := "A", stock := 1, maxPrice := some 40 }).maxPrice
      = some 40 :=
  (pricing_amended cexLine1225 { id := "A", stock := 1, maxPrice := some 40 }).2.2.1
    40 rfl

/-! ## C2 — allocation conservation -/

/-- Pointwise-equal functions give equal mapped sums. -/
theorem list_sum_map_congr {α : Type _} {f g : α → ℚ} {l : List α}
    (h : ∀ a ∈ l, f a = g a) : (l.map f).sum = (l.map g).sum := by
  rw [List.map_congr_left h]

/-- C2 counterexample: re-running the allocation (recalculate action) on a
purchase whose single line has one sub-item unit (2 total units), cost 10,
subtotal 10 and tax 10 produces `Σ perUnitTax × lineUnits = 20 ≠ 10`: the
proportional tax formula double-counts sub-item units. -/
theorem allocation_conservation_counterexample :
    perUnitTaxTotal ((recalcPurchase [cexItemA] cexSubItemPurchase).2.lines) = 20 ∧
    (recalcPurchase [cexItemA] cexSubItemPurchase).2.tax = 10 ∧
    ¬ ((20 : ℚ) = 10) := by
  refine ⟨?_, rfl, by norm_num⟩
  norm_num [perUnitTaxTotal, recalcPurchase, enrichLinesProportional,
    cexSubItemPurchase, cexItemA, itemWeight, purchaseTotalWeight, totalUnits,
    lineUnits, lineCostPost]

/-- Helper: an equal per-unit share, summed over all line units, restores
the total, whenever the purchase has units. -/
theorem equal_share_sum (lines : List PurchaseLine) (x : ℚ)
    (hunits : totalUnits lines ≠ 0) :
    (lines.map (fun l => (if totalUnits lines = 0 then 0 else x / totalUnits lines)
        * lineUnits l)).sum = x := by
  have h1 : (lines.map (fun l =>
      (if totalUnits lines = 0 then 0 else x / totalUnits lines) * lineUnits l)).sum
      = (lines.map (fun l => (x / totalUnits lines) * lineUnits l)).sum := by
    refine list_sum_map_congr ?_
    intro l hl
    rw [if_neg hunits]
  rw [h1, List.sum_map_mul_left]
  exact div_mul_cancel₀ x hunits

/-- C2 amended: conservation holds exactly (hence within any tolerance) per
scheme and per figure.  Equal-per-unit save enrichment (`part_017`/`App.tsx`):
all three sums restore the aggregates whenever the purchase has units.
Proportional enrichment (recalculate action and `PurchaseForm.tsx` save):
the tax sum equals `tax` when the subtotal is positive, equals
`Σ lineUnits × unitCost` and the line quantities are non-zero; the US
shipping sum equals `shippingUS` when the purchase has units and
`shippingUS ≥ 0`; the international shipping sum equals `shippingIntl` when
the total weight is positive (with non-negative line units). -/
theorem allocation_conservation_amended :
    (∀ (lines : List PurchaseLine) (tax shipUS shipIntl : ℚ),
        totalUnits lines ≠ 0 →
        perUnitTaxTotal (enrichLinesEqual lines tax shipUS shipIntl) = tax ∧
        perUnitShippingUSTotal (enrichLinesEqual lines tax shipUS shipIntl) = shipUS ∧
        perUnitShippingIntlTotal (enrichLinesEqual lines tax shipUS shipIntl)
          = shipIntl) ∧
    (∀ (items : List InventoryItem) (lines : List PurchaseLine)
        (tax shipUS shipIntl subtotal : ℚ),
        0 < subtotal → (∀ l ∈ lines, l.quantity ≠ 0) →
        (lines.map (fun l => lineUnits l * l.unitCost)).sum = subtotal →
        perUnitTaxTotal (enrichLinesProportional items lines tax shipUS shipIntl subtotal)
          = tax) ∧
    (∀ (items : List InventoryItem) (lines : List PurchaseLine)
        (tax shipUS shipIntl subtotal : ℚ),
        totalUnits lines ≠ 0 → 0 ≤ shipUS →
        perUnitShippingUSTotal
          (enrichLinesProportional items lines tax shipUS shipIntl subtotal)
          = shipUS) ∧
    (∀ (items : List InventoryItem) (lines : List PurchaseLine)
        (tax shipUS shipIntl subtotal : ℚ),
        0 < purchaseTotalWeight items lines → (∀ l ∈ lines, 0 ≤ lineUnits l) →
        perUnitShippingIntlTotal
          (enrichLinesProportional items lines tax shipUS shipIntl subtotal)
          = shipIntl) := by
  refine ⟨?_, ?_, ?_, ?_⟩
  · -- equal enrichment: all three figures
    intro lines tax shipUS shipIntl hunits
    refine ⟨?_, ?_, ?_⟩
    · have h1 : perUnitTaxTotal (enrichLinesEqual lines tax shipUS shipIntl)
          = (lines.map (fun l =>
              (if totalUnits lines = 0 then 0 else tax / totalUnits lines)
                * lineUnits l)).sum := by
        unfold perUnitTaxTotal enrichLinesEqual
        dsimp only
        rw [List.map_map]
        rfl
      rw [h1, equal_share_sum lines tax hunits]
    · have h1 : perUnitShippingUSTotal (enrichLinesEqual lines tax shipUS shipIntl)
          = (lines.map (fun l =>
              (if totalUnits lines = 0 then 0 else shipUS / totalUnits lines)
                * lineUnits l)).sum := by
        unfold perUnitShippingUSTotal enrichLinesEqual
        dsimp only
        rw [List.map_map]
        rfl
      rw [h1, equal_share_sum lines shipUS hunits]
    · have h1 : perUnitShippingIntlTotal (enrichLinesEqual lines tax shipUS shipIntl)
          = (lines.map (fun l =>
              (if totalUnits lines = 0 then 0 else shipIntl / totalUnits lines)
                * lineUnits l)).sum := by
        unfold perUnitShippingIntlTotal enrichLinesEqual
        dsimp only
        rw [List.map_map]
        rfl
      rw [h1, equal_share_sum lines shipIntl hunits]
  · -- proportional enrichment, tax
    intro items lines tax shipUS shipIntl subtotal hsub hq hsubeq
    have h1 : perUnitTaxTotal
        (enrichLinesProportional items lines tax shipUS shipIntl subtotal)
        = (lines.map (fun l => (tax / subtotal) * (lineUnits l * l.unitCost))).sum := by
      unfold perUnitTaxTotal enrichLinesProportional
      dsimp only
      rw [List.map_map]
      refine list_sum_map_congr ?_
      intro l hl
      have hql := hq l hl
      have hs := hsub.ne'
      show (if 0 < subtotal then tax * (l.quantity * l.unitCost) / (subtotal * l.quantity)
          else 0) * lineUnits l = tax / subtotal * (lineUnits l * l.unitCost)
      rw [if_pos hsub]
      field_simp
      ring
    rw [h1, List.sum_map_mul_left, hsubeq]
    exact div_mul_cancel₀ tax hsub.ne'
  · -- proportional enrichment, US shipping
    intro items lines tax shipUS shipIntl subtotal hunits hUS
    rcases eq_or_lt_of_le hUS with h0 | h0
    · have h1 : perUnitShippingUSTotal
          (enrichLinesProportional items lines tax shipUS shipIntl subtotal)
          = (lines.map (fun _ => (0 : ℚ))).sum := by
        unfold perUnitShippingUSTotal enrichLinesProportional
        dsimp only
        rw [List.map_map]
        refine list_sum_map_congr ?_
        intro l hl
        show (if 0 < shipUS ∧ totalUnits lines ≠ 0 then shipUS / totalUnits lines
            else 0) * lineUnits l = 0
        rw [if_neg (by rw [← h0]; simp)]
        ring
      rw [h1, ← h0]
      simp
    · have h1 : perUnitShippingUSTotal
          (enrichLinesProportional items lines tax shipUS shipIntl subtotal)
          = (lines.map (fun l => (shipUS / totalUnits lines) * lineUnits l)).sum := by
        unfold perUnitShippingUSTotal enrichLinesProportional
        dsimp only
        rw [List.map_map]
        refine list_sum_map_congr ?_
        intro l hl
        show (if 0 < shipUS ∧ totalUnits lines ≠ 0 then shipUS / totalUnits lines
            else 0) * lineUnits l = shipUS / totalUnits lines * lineUnits l
        rw [if_pos ⟨h0, hunits⟩]
      rw [h1, List.sum_map_mul_left]
      exact div_mul_cancel₀ shipUS hunits
  · -- proportional enrichment, international shipping
    intro items lines tax shipUS shipIntl subtotal hW hu
    have h1 : perUnitShippingIntlTotal
        (enrichLinesProportional items lines tax shipUS shipIntl subtotal)
        = (lines.map (fun l => (shipIntl / purchaseTotalWeight items lines)
            * (itemWeight items l.itemId * lineUnits l))).sum := by
      unfold perUnitShippingIntlTotal enrichLinesProportional
      dsimp only
      rw [List.map_map]
      refine list_sum_map_congr ?_
      intro l hl
      have hWne := hW.ne'
      show (if 0 < lineUnits l then
          (shipIntl * (if 0 < purchaseTotalWeight items lines then
            itemWeight items l.itemId * lineUnits l / purchaseTotalWeight items lines
          else 0)) / lineUnits l
        else 0) * lineUnits l
        = shipIntl / purchaseTotalWeight items lines
            * (itemWeight items l.itemId * lineUnits l)
      rw [if_pos hW]
      by_cases hul : 0 < lineUnits l
      · rw [if_pos hul]
        have hune := hul.ne'
        field_simp
        ring
      · rw [if_neg hul]
        have : lineUnits l = 0 := le_antisymm (not_lt.mp hul) (hu l hl)
        rw [this]
        ring
    rw [h1, List.sum_map_mul_left]
    exact div_mul_cancel₀ shipIntl hW.ne'

/-- Witness for C2 (amended): the equal-save tax conservation on one line of
one unit at cost 10, tax 10, US shipping 5, international shipping 7. -/
theorem allocation_conservation_amended_witness :
    perUnitTaxTotal (enrichLinesEqual cexConsLines 10 5 7) = 10 :=
  (allocation_conservation_amended.1 cexConsLines 10 5 7
    (by simp [totalUnits, cexConsLines, lineUnits])).1

/-! ## C4 — ledger non-negativity and write-time validation -/

/-- A successful `processPurchaseWithRevenue` appends only withdrawals whose
amount was validated against the input snapshot. -/
theorem processPurchaseWithRevenue_ok_withdrawals
    {newId newTime : String} {db : DB} {p : Purchase} {r : ℚ}
    {reason : String} {notes : Option String} {res : PurchaseRevenueResult}
    (h : processPurchaseWithRevenue newId newTime db p r reason notes = Except.ok res) :
    ∃ ws, res.updatedDb.revenueWithdrawals = db.revenueWithdrawals ++ ws ∧
      ∀ w ∈ ws, w.amount ≤ calculateAvailableRevenue db := by
  unfold processPurchaseWithRevenue at h
  by_cases hcw : canWithdrawRevenue db r = true
  · rw [if_pos hcw] at h
    dsimp only at h
    by_cases hpos : 0 < (calculatePaymentBreakdown p.totalCost r).revenueUsed
    · rw [if_pos hpos] at h
      injection h with h1
      refine ⟨[createRevenueWithdrawal newId newTime
          (calculatePaymentBreakdown p.totalCost r).revenueUsed reason (some p.id) notes],
        ?_, ?_⟩
      · rw [← h1]
      · intro w hw
        simp only [List.mem_singleton] at hw
        subst hw
        have hr := canWithdrawRevenue_pos hcw
        have hle : (calculatePaymentBreakdown p.totalCost r).revenueUsed ≤ r := by
          show max 0 (min r p.totalCost) ≤ r
          exact max_le (le_of_lt hr) (min_le_left _ _)
        exact le_trans hle (canWithdrawRevenue_le hcw)
    · rw [if_neg hpos] at h
      injection h with h1
      exact ⟨[], by rw [← h1]; simp, by simp⟩
  · rw [if_neg hcw] at h
    exact absurd h (by simp)

/-- Lemma: `processTransactionWithRevenue` appends only withdrawals whose amount
was validated against the input snapshot. -/
theorem processTransactionWithRevenue_withdrawals
    (newId newTime : String) (db : DB) (t : Transaction) :
    ∃ ws, (processTransactionWithRevenue newId newTime db t).updatedDb.revenueWithdrawals
        = db.revenueWithdrawals ++ ws ∧
      ∀ w ∈ ws, w.amount ≤ calculateAvailableRevenue db := by
  unfold processTransactionWithRevenue
  split
  · exact ⟨[], by simp, by simp⟩
  · dsimp only
    split
    · split
      · rename_i hcw
        refine ⟨[createRevenueWithdrawal newId newTime (transactionRevenueToWithdraw t)
            ("Transaction: " ++ t.description) none (some t.category)], rfl, ?_⟩
        intro w hw
        simp only [List.mem_singleton] at hw
        subst hw
        exact canWithdrawRevenue_le hcw
      · exact ⟨[], by simp, by simp⟩
    · exact ⟨[], by simp, by simp⟩

/-- Lemma: `purchaseFormSave` only hands `PurchasesPage.handleSave` withdrawal
lists that extend the snapshot's by validated amounts. -/
theorem purchaseFormSave_withdrawals
    {a b c : String} {db : DB} {st : PurchaseFormState}
    {p : Purchase} {itemsUpdated : List InventoryItem}
    {wds : Option (List RevenueWithdrawal)}
    (h : purchaseFormSave a b c db st = some (p, itemsUpdated, wds)) :
    ∃ ws, wds.getD db.revenueWithdrawals = db.revenueWithdrawals ++ ws ∧
      ∀ w ∈ ws, w.amount ≤ calculateAvailableRevenue db := by
  unfold purchaseFormSave at h
  split at h
  · exact absurd h (by simp)
  split at h
  · exact absurd h (by simp)
  dsimp only at h
  split at h
  · split at h
    · exact absurd h (by simp)
    · split at h
      · exact absurd h (by simp)
      · rename_i x1 res hok x2 up hfind
        simp only [Option.some.injEq, Prod.mk.injEq] at h
        obtain ⟨-, -, rfl⟩ := h
        obtain ⟨ws, hws, hb⟩ := processPurchaseWithRevenue_ok_withdrawals hok
        exact ⟨ws, by simpa using hws, hb⟩
  · simp only [Option.some.injEq, Prod.mk.injEq] at h
    obtain ⟨-, -, rfl⟩ := h
    exact ⟨[], by simp, by simp⟩

/-- C4: the available revenue of any snapshot is non-negative, and every
user-level operation only ever appends withdrawals whose amounts were
validated (amount ≤ available revenue) against the snapshot as it stood
immediately before the write. -/
theorem revenue_ledger_invariant (db : DB) (op : Op) :
    0 ≤ calculateAvailableRevenue db ∧
    ∃ ws, (applyOp op db).revenueWithdrawals = db.revenueWithdrawals ++ ws ∧
      ∀ w ∈ ws, w.amount ≤ calculateAvailableRevenue db := by
  refine ⟨calculateAvailableRevenue_nonneg db, ?_⟩
  cases op with
  | savePurchase a b c inp =>
    show ∃ ws, (purchaseSaveOp a b c db (mkPurchaseFormState db inp)).revenueWithdrawals
        = db.revenueWithdrawals ++ ws ∧ _
    unfold purchaseSaveOp
    split
    · exact ⟨[], by simp, by simp⟩
    · rename_i trip p itemsUpdated wds hs
      obtain ⟨ws, hws, hb⟩ := purchaseFormSave_withdrawals hs
      exact ⟨ws, hws, hb⟩
  | deletePurchase i =>
    show ∃ ws, (purchasesPageOnDelete db i).revenueWithdrawals
        = db.revenueWithdrawals ++ ws ∧ _
    unfold purchasesPageOnDelete
    split
    · exact ⟨[], by simp, by simp⟩
    · exact ⟨[], by simp, by simp⟩
  | saveSale nid iid lines =>
    show ∃ ws, (saleSaveOp nid db _ lines).revenueWithdrawals
        = db.revenueWithdrawals ++ ws ∧ _
    unfold saleSaveOp
    split
    · exact ⟨[], by simp, by simp⟩
    · exact ⟨[], by simp [salesPageHandleSave], by simp⟩
  | deleteSale i =>
    show ∃ ws, (salesPageOnDelete db i).revenueWithdrawals
        = db.revenueWithdrawals ++ ws ∧ _
    unfold salesPageOnDelete
    split
    · exact ⟨[], by simp, by simp⟩
    · exact ⟨[], by simp, by simp⟩
  | saveTransaction a b t =>
    show ∃ ws, ((transactionsPageHandleSave a b db t).getD db).revenueWithdrawals
        = db.revenueWithdrawals ++ ws ∧ _
    unfold transactionsPageHandleSave
    split
    · dsimp only
      split
      · exact ⟨[], by simp, by simp⟩
      · obtain ⟨ws, hws, hb⟩ := processTransactionWithRevenue_withdrawals a b db t
        exact ⟨ws, by simpa using hws, hb⟩
    · exact ⟨[], by simp, by simp⟩

/-! ## C9 — non-negative stock: list infrastructure -/

/-- A fold of per-element map updates preserves a pointwise invariant. -/
theorem mem_foldl_map {α β : Type _} {P : α → Prop} (h : β → α → α)
    (bs : List β) (acc : List α) (hacc : ∀ a ∈ acc, P a)
    (hstep : ∀ b ∈ bs, ∀ a, P a → P (h b a)) :
    ∀ a ∈ bs.foldl (fun acc b => acc.map (h b)) acc, P a := by
  induction bs generalizing acc with
  | nil => simpa using hacc
  | cons b bs ih =>
    intro a ha
    simp only [List.foldl_cons] at ha
    refine ih (acc.map (h b)) ?_
      (fun b' hb' => hstep b' (List.mem_cons_of_mem _ hb')) a ha
    intro x hx
    obtain ⟨y, hy, rfl⟩ := List.mem_map.mp hx
    exact hstep b (List.mem_cons_self b bs) y (hacc y hy)

/-- Elements of `updateFirst p f l` are elements of `l` or images under `f`. -/
theorem mem_updateFirst_cases {α : Type _} {p : α → Bool} {f : α → α} {l : List α}
    {a : α} (ha : a ∈ updateFirst p f l) : a ∈ l ∨ ∃ b ∈ l, a = f b := by
  induction l with
  | nil => simp [updateFirst] at ha
  | cons x xs ih =>
    simp only [updateFirst] at ha
    by_cases hx : p x = true
    · rw [if_pos hx] at ha
      rcases List.mem_cons.mp ha with h | h
      · exact Or.inr ⟨x, List.mem_cons_self x xs, h⟩
      · exact Or.inl (List.mem_cons_of_mem _ h)
    · rw [if_neg hx] at ha
      rcases List.mem_cons.mp ha with h | h
      · subst h
        exact Or.inl (List.mem_cons_self a xs)
      · rcases ih h with h' | ⟨b, hb, hab⟩
        · exact Or.inl (List.mem_cons_of_mem _ h')
        · exact Or.inr ⟨b, List.mem_cons_of_mem _ hb, hab⟩

/-- The overwrite-or-append merge of `PurchasesPage.handleSave` preserves a
pointwise invariant if the incoming items satisfy it. -/
theorem mem_mergeItems {P : InventoryItem → Prop} :
    ∀ uis acc : List InventoryItem,
      (∀ a ∈ acc, P a) → (∀ u ∈ uis, P u) →
      ∀ a ∈ uis.foldl
        (fun acc ui =>
          if acc.any (fun it => it.id = ui.id) then
            updateFirst (fun it => it.id = ui.id) (fun _ => ui) acc
          else acc ++ [ui]) acc, P a := by
  intro uis
  induction uis with
  | nil =>
    intro acc hacc _ a ha
    simpa using hacc a ha
  | cons u us ih =>
    intro acc hacc huis a ha
    simp only [List.foldl_cons] at ha
    refine ih _ ?_ (fun v hv => huis v (List.mem_cons_of_mem _ hv)) a ha
    intro x hx
    by_cases hany : (acc.any (fun it => it.id = u.id)) = true
    · rw [if_pos hany] at hx
      rcases mem_updateFirst_cases hx with h | ⟨b, hb, rfl⟩
      · exact hacc x h
      · exact huis x (List.mem_cons_self x us)
    · rw [if_neg hany] at hx
      rcases List.mem_append.mp hx with h | h
      · exact hacc x h
      · simp only [List.mem_singleton] at h
        subst h
        exact huis x (List.mem_cons_self x us)

/-- A well-formed line contributes a non-negative number of units. -/
theorem lineUnits_nonneg {l : PurchaseLine} (hl : wfPurchaseLine l) :
    0 ≤ lineUnits l := by
  unfold lineUnits
  rcases hl with ⟨hq, hs⟩
  by_cases h : l.hasSubItems = true
  · rw [if_pos h]
    exact add_nonneg hq hs
  · rw [if_neg h]
    simpa using hq

/-- Enrichment keeps quantities and sub-item counts, hence well-formedness. -/
theorem wf_enrichLinesEqual (lines : List PurchaseLine) (tax a b : ℚ)
    (h : ∀ l ∈ lines, wfPurchaseLine l) :
    ∀ l' ∈ enrichLinesEqual lines tax a b, wfPurchaseLine l' := by
  intro l' hl'
  unfold enrichLinesEqual at hl'
  dsimp only at hl'
  obtain ⟨l, hl, rfl⟩ := List.mem_map.mp hl'
  exact h l hl

/-- The quantity branch of the `part_017`/`App.tsx` item update keeps stock
non-negative for well-formed lines. -/
theorem applyLineToItemQty17_stock {l : PurchaseLine} {it : InventoryItem}
    (hl : 0 ≤ lineUnits l) (hit : 0 ≤ it.stock) :
    0 ≤ (applyLineToItemQty17 l it).stock := by
  show 0 ≤ it.stock + lineUnits l
  exact add_nonneg hit hl

/-- The purchase form's item updates keep stocks non-negative. -/
theorem stocksNonneg_purchaseFormItemsUpdated
    (items : List InventoryItem) (enriched : List PurchaseLine) (b : Bool)
    (hitems : stocksNonneg items)
    (henr : ∀ l ∈ enriched, wfPurchaseLine l) :
    stocksNonneg (purchaseFormItemsUpdated applyLineToItemQty17 items enriched b) := by
  unfold purchaseFormItemsUpdated
  by_cases hb : b = true
  · rw [if_pos hb]
    refine mem_foldl_map
      (fun l it => if it.id = l.itemId then applyLineToItemQty17 l it else it)
      enriched items hitems ?_
    intro l hl it hit
    dsimp only
    by_cases hid : it.id = l.itemId
    · rw [if_pos hid]
      exact applyLineToItemQty17_stock (lineUnits_nonneg (henr l hl)) hit
    · rw [if_neg hid]
      exact hit
  · rw [if_neg hb]
    refine mem_foldl_map
      (fun l it => if it.id = l.itemId then applyLineToItemCostOnly l it else it)
      enriched items hitems ?_
    intro l hl it hit
    dsimp only
    by_cases hid : it.id = l.itemId
    · rw [if_pos hid]
      exact hit
    · rw [if_neg hid]
      exact hit

/-! ## C9 — non-negative stock: operation-level preservation -/

/-- The replace-or-append idiom preserves a pointwise purchase property. -/
theorem wf_replaceOrAppend {P : Purchase → Prop}
    (ps : List Purchase) (p0 : Purchase) (i : String)
    (hps : ∀ q ∈ ps, P q) (hp0 : P p0) :
    ∀ q ∈ (if (ps.any fun q => q.id = i) = true
        then ps.map (fun q => if q.id = i then p0 else q)
        else ps ++ [p0]), P q := by
  intro q hq
  split at hq
  · obtain ⟨q0, hq0, rfl⟩ := List.mem_map.mp hq
    by_cases hid : q0.id = i
    · rw [if_pos hid]
      exact hp0
    · rw [if_neg hid]
      exact hps q0 hq0
  · rcases List.mem_append.mp hq with h | h
    · exact hps q h
    · simp only [List.mem_singleton] at h
      subst h
      exact hp0

/-- A successful `processPurchaseWithRevenue` stores only purchases whose
lines were already stored or come from the processed purchase. -/
theorem processPurchaseWithRevenue_ok_purchases
    {newId newTime : String} {db : DB} {p : Purchase} {r : ℚ}
    {reason : String} {notes : Option String} {res : PurchaseRevenueResult}
    (h : processPurchaseWithRevenue newId newTime db p r reason notes = Except.ok res)
    (hdb : ∀ q ∈ db.purchases, ∀ l ∈ q.lines, wfPurchaseLine l)
    (hp : ∀ l ∈ p.lines, wfPurchaseLine l) :
    ∀ q ∈ res.updatedDb.purchases, ∀ l ∈ q.lines, wfPurchaseLine l := by
  unfold processPurchaseWithRevenue at h
  split at h
  · dsimp only at h
    injection h with h1
    rw [← h1]
    dsimp only
    intro q hq
    obtain ⟨q0, hq0, rfl⟩ := List.mem_map.mp hq
    by_cases hid : q0.id = p.id
    · rw [if_pos hid]
      exact hp
    · rw [if_neg hid]
      exact hdb q0 hq0
  · exact absurd h (by simp)

/-- Inversion of the purchase form's `save`: the accepted purchase carries
well-formed lines and the returned items carry non-negative stocks. -/
theorem purchaseFormSave_inv
    {a b c : String} {db : DB} {st : PurchaseFormState}
    {p : Purchase} {itemsUpdated : List InventoryItem}
    {wds : Option (List RevenueWithdrawal)}
    (hlines : ∀ l ∈ st.lines, wfPurchaseLine l)
    (hitems : stocksNonneg st.items)
    (hdbpur : ∀ q ∈ db.purchases, ∀ l ∈ q.lines, wfPurchaseLine l)
    (h : purchaseFormSave a b c db st = some (p, itemsUpdated, wds)) :
    (∀ l ∈ p.lines, wfPurchaseLine l) ∧ stocksNonneg itemsUpdated := by
  have henr : ∀ l' ∈ enrichLinesEqual st.lines st.tax st.shipUS st.shipIntl,
      wfPurchaseLine l' :=
    wf_enrichLinesEqual st.lines st.tax st.shipUS st.shipIntl hlines
  have hiu : ∀ bb : Bool, stocksNonneg (purchaseFormItemsUpdated applyLineToItemQty17
      st.items (enrichLinesEqual st.lines st.tax st.shipUS st.shipIntl) bb) :=
    fun bb => stocksNonneg_purchaseFormItemsUpdated st.items _ bb hitems henr
  unfold purchaseFormSave at h
  split at h
  · exact absurd h (by simp)
  split at h
  · exact absurd h (by simp)
  dsimp only at h
  split at h
  · split at h
    · exact absurd h (by simp)
    · split at h
      · exact absurd h (by simp)
      · rename_i x1 res hok x2 up hfind
        simp only [Option.some.injEq, Prod.mk.injEq] at h
        obtain ⟨rfl, rfl, -⟩ := h
        constructor
        · refine processPurchaseWithRevenue_ok_purchases hok ?_ ?_ up
            (List.mem_of_find?_eq_some hfind)
          · exact wf_replaceOrAppend db.purchases _ _ hdbpur henr
          · exact henr
        · exact hiu _
  · simp only [Option.some.injEq, Prod.mk.injEq] at h
    obtain ⟨rfl, rfl, -⟩ := h
    exact ⟨henr, hiu _⟩

/-- Lemma: `PurchasesPage.handleSave` preserves snapshot well-formedness when fed a
well-formed purchase and non-negative item stocks. -/
theorem wfDB_purchasesPageHandleSave
    (db : DB) (purchase : Purchase) (updatedItems : List InventoryItem)
    (wds : Option (List RevenueWithdrawal))
    (hdb : wfDB db)
    (hpl : ∀ l ∈ purchase.lines, wfPurchaseLine l)
    (hui : stocksNonneg updatedItems) :
    wfDB (purchasesPageHandleSave db purchase updatedItems wds) := by
  obtain ⟨hstock, hpur, hsal⟩ := hdb
  unfold wfDB
  refine ⟨?_, ?_, ?_⟩
  · unfold purchasesPageHandleSave stocksNonneg
    dsimp only
    refine mem_mergeItems updatedItems _ ?_ hui
    split
    · rename_i ex hfind
      refine mem_foldl_map
        (fun l it => if it.id = l.itemId
          then { it with stock := max 0 (it.stock - lineUnits l) } else it)
        ex.lines db.items hstock ?_
      intro l hl it hit
      dsimp only
      by_cases hid : it.id = l.itemId
      · rw [if_pos hid]
        exact le_max_left 0 _
      · rw [if_neg hid]
        exact hit
    · exact hstock
  · unfold purchasesPageHandleSave
    dsimp only
    exact wf_replaceOrAppend db.purchases purchase purchase.id hpur hpl
  · unfold purchasesPageHandleSave
    dsimp only
    exact hsal

/-- Inversion of `SaleForm.save`: the stored sale carries exactly the form's
lines, and the returned items carry non-negative stocks. -/
theorem saleFormSave_inv
    {nid : String} {db : DB} {ini : Option Sale} {lines : List SaleLine}
    {s : Sale} {updatedItems : List InventoryItem}
    (hdbitems : stocksNonneg db.items)
    (h : saleFormSave nid db ini lines = some (s, updatedItems)) :
    s.lines = lines ∧ stocksNonneg updatedItems := by
  unfold saleFormSave at h
  split at h
  · exact absurd h (by simp)
  split at h
  · exact absurd h (by simp)
  dsimp only at h
  simp only [Option.some.injEq, Prod.mk.injEq] at h
  obtain ⟨rfl, rfl⟩ := h
  refine ⟨rfl, ?_⟩
  unfold saleFormItemsUpdated stocksNonneg
  refine mem_foldl_map
    (fun l it => if it.id = l.itemId
      then { it with stock := max 0 (it.stock - l.quantity) } else it)
    lines db.items hdbitems ?_
  intro l hl it hit
  dsimp only
  by_cases hid : it.id = l.itemId
  · rw [if_pos hid]
    exact le_max_left 0 _
  · rw [if_neg hid]
    exact hit

/-- Lemma: `SalesPage.handleSave` preserves snapshot well-formedness. -/
theorem wfDB_salesPageHandleSave
    (db : DB) (sale : Sale) (updatedItems : List InventoryItem)
    (hdb : wfDB db)
    (hsl : ∀ l ∈ sale.lines, wfSaleLine l)
    (hui : stocksNonneg updatedItems) :
    wfDB (salesPageHandleSave db sale updatedItems) := by
  obtain ⟨hstock, hpur, hsal⟩ := hdb
  unfold wfDB
  refine ⟨?_, ?_, ?_⟩
  · unfold salesPageHandleSave stocksNonneg
    dsimp only
    refine mem_foldl_map (fun ui it => if it.id = ui.id then ui else it)
      updatedItems _ ?_ ?_
    · split
      · rename_i ex hfind
        have hex : ex ∈ db.sales := List.mem_of_find?_eq_some hfind
        refine mem_foldl_map
          (fun l it => if it.id = l.itemId
            then { it with stock := it.stock + l.quantity } else it)
          ex.lines db.items hstock ?_
        intro l hl it hit
        dsimp only
        by_cases hid : it.id = l.itemId
        · rw [if_pos hid]
          exact add_nonneg hit (hsal ex hex l hl)
        · rw [if_neg hid]
          exact hit
      · exact hstock
    · intro ui hui' it hit
      dsimp only
      by_cases hid : it.id = ui.id
      · rw [if_pos hid]
        exact hui ui hui'
      · rw [if_neg hid]
        exact hit
  · unfold salesPageHandleSave
    dsimp only
    exact hpur
  · unfold salesPageHandleSave
    dsimp only
    intro q hq
    split at hq
    · obtain ⟨q0, hq0, rfl⟩ := List.mem_map.mp hq
      by_cases hid : q0.id = sale.id
      · rw [if_pos hid]
        exact hsl
      · rw [if_neg hid]
        exact hsal q0 hq0
    · rcases List.mem_append.mp hq with h | h
      · exact hsal q h
      · simp only [List.mem_singleton] at h
        subst h
        exact hsl

/-- Lemma: `processTransactionWithRevenue` never touches items, purchases or sales. -/
theorem processTransactionWithRevenue_updatedDb_fields
    (newId newTime : String) (db : DB) (t : Transaction) :
    (processTransactionWithRevenue newId newTime db t).updatedDb.items = db.items ∧
    (processTransactionWithRevenue newId newTime db t).updatedDb.purchases
      = db.purchases ∧
    (processTransactionWithRevenue newId newTime db t).updatedDb.sales = db.sales := by
  unfold processTransactionWithRevenue
  split
  · exact ⟨rfl, rfl, rfl⟩
  · dsimp only
    split
    · split
      · exact ⟨rfl, rfl, rfl⟩
      · exact ⟨rfl, rfl, rfl⟩
    · exact ⟨rfl, rfl, rfl⟩

/-- Every user-level operation preserves snapshot well-formedness. -/
theorem wfDB_applyOp (db : DB) (op : Op) (hdb : wfDB db) (hop : wfOp op) :
    wfDB (applyOp op db) := by
  cases op with
  | savePurchase a b c inp =>
    obtain ⟨hlines, hquick⟩ := hop
    dsimp only [applyOp]
    unfold purchaseSaveOp
    rcases hs : purchaseFormSave a b c db (mkPurchaseFormState db inp) with
      _ | ⟨p, itemsUpdated, wds⟩
    · exact hdb
    · have hst_lines : ∀ l ∈ (mkPurchaseFormState db inp).lines, wfPurchaseLine l :=
        hlines
      have hst_items : stocksNonneg (mkPurchaseFormState db inp).items := by
        intro it hit
        rcases List.mem_append.mp hit with h | h
        · exact hdb.1 it h
        · exact hquick it h
      obtain ⟨hpl, hui⟩ := purchaseFormSave_inv hst_lines hst_items hdb.2.1 hs
      exact wfDB_purchasesPageHandleSave db p itemsUpdated wds hdb hpl hui
  | deletePurchase i =>
    dsimp only [applyOp]
    unfold purchasesPageOnDelete
    cases hf : db.purchases.find? (fun x => x.id = i) with
    | none =>
      exact ⟨hdb.1, fun q hq => hdb.2.1 q (List.mem_of_mem_filter hq), hdb.2.2⟩
    | some p =>
      refine ⟨?_, fun q hq => hdb.2.1 q (List.mem_of_mem_filter hq), hdb.2.2⟩
      intro it hit
      obtain ⟨it0, hit0, rfl⟩ := List.mem_map.mp hit
      exact le_max_left 0 _
  | saveSale nid iid lines =>
    dsimp only [applyOp]
    unfold saleSaveOp
    rcases hs : saleFormSave nid db
        (iid.bind fun i => db.sales.find? (fun s => s.id = i)) lines with
      _ | ⟨s, updatedItems⟩
    · exact hdb
    · obtain ⟨hsl, hui⟩ := saleFormSave_inv hdb.1 hs
      refine wfDB_salesPageHandleSave db s updatedItems hdb ?_ hui
      rw [hsl]
      exact hop
  | deleteSale i =>
    dsimp only [applyOp]
    unfold salesPageOnDelete
    cases hf : db.sales.find? (fun x => x.id = i) with
    | none =>
      exact ⟨hdb.1, hdb.2.1, fun q hq => hdb.2.2 q (List.mem_of_mem_filter hq)⟩
    | some s =>
      have hex : s ∈ db.sales := List.mem_of_find?_eq_some hf
      refine ⟨?_, hdb.2.1, fun q hq => hdb.2.2 q (List.mem_of_mem_filter hq)⟩
      refine mem_foldl_map
        (fun l it => if it.id = l.itemId
          then { it with stock := it.stock + l.quantity } else it)
        s.lines db.items hdb.1 ?_
      intro l hl it hit
      dsimp only
      by_cases hid : it.id = l.itemId
      · rw [if_pos hid]
        exact add_nonneg hit (hdb.2.2 s hex l hl)
      · rw [if_neg hid]
        exact hit
  | saveTransaction a b t =>
    dsimp only [applyOp]
    unfold transactionsPageHandleSave
    split
    · dsimp only
      split
      · exact hdb
      · obtain ⟨hi, hpu, hsa⟩ := processTransactionWithRevenue_updatedDb_fields a b db t
        refine ⟨?_, ?_, ?_⟩
        · show stocksNonneg (processTransactionWithRevenue a b db t).updatedDb.items
          rw [hi]
          exact hdb.1
        · show ∀ q ∈ (processTransactionWithRevenue a b db t).updatedDb.purchases,
            ∀ l ∈ q.lines, wfPurchaseLine l
          rw [hpu]
          exact hdb.2.1
        · show ∀ q ∈ (processTransactionWithRevenue a b db t).updatedDb.sales,
            ∀ l ∈ q.lines, wfSaleLine l
          rw [hsa]
          exact hdb.2.2
    · exact ⟨hdb.1, hdb.2.1, hdb.2.2⟩

/-- Well-formedness is preserved along any operation sequence. -/
theorem wfDB_applyOps :
    ∀ (ops : List Op) (db : DB), wfDB db → (∀ op ∈ ops, wfOp op) →
      wfDB (applyOps ops db) := by
  intro ops
  induction ops with
  | nil =>
    intro db hdb _
    simpa [applyOps] using hdb
  | cons op ops ih =>
    intro db hdb hops
    have h1 : wfDB (applyOp op db) :=
      wfDB_applyOp db op hdb (hops op (List.mem_cons_self op ops))
    have h2 : applyOps (op :: ops) db = applyOps ops (applyOp op db) := rfl
    rw [h2]
    exact ih (applyOp op db) h1 (fun o ho => hops o (List.mem_cons_of_mem _ ho))

/-- C9: starting from a well-formed snapshot (non-negative stocks and
non-negative stored line quantities), any sequence of purchase/sale
create/edit/delete (and transaction) operations with non-negative form
quantities leaves every item's stock non-negative. -/
theorem stock_never_negative (db : DB) (ops : List Op)
    (hdb : wfDB db) (hops : ∀ op ∈ ops, wfOp op) :
    stocksNonneg (applyOps ops db).items :=
  (wfDB_applyOps ops db hdb hops).1

/-- Witness for C9: delete the stored purchase of `cexDbEdit`. -/
theorem stock_never_negative_witness :
    stocksNonneg (applyOps [Op.deletePurchase "P"] cexDbEdit).items :=
  stock_never_negative cexDbEdit [Op.deletePurchase "P"]
    (by
      refine ⟨?_, ?_, ?_⟩ <;>
        norm_num [stocksNonneg, cexDbEdit, cexEditOldPurchase, wfPurchaseLine,
          wfSaleLine])
    (by
      intro op hop
      simp only [List.mem_singleton] at hop
      subst hop
      trivial)

/-! ## C6 — purchase edit double-counts old units (code bug) -/

/-- The form save of the edit scenario, evaluated. -/
theorem purchaseFormSave_cexEdit :
    purchaseFormSave "newP" "w" "t" cexDbEdit (mkPurchaseFormState cexDbEdit cexEditInput)
      = some (cexEditPurchaseOut, cexEditItemsOut, none) := by
  norm_num [purchaseFormSave, mkPurchaseFormState, cexEditInput, cexDbEdit,
    cexEditOldPurchase, enrichLinesEqual, buildPurchase, hasQuantityChanges,
    purchaseFormItemsUpdated, applyLineToItemQty17, calculatePaymentBreakdown,
    totalUnits, lineUnits, lineCostPost, ceilQ, cexEditPurchaseOut,
    cexEditItemsOut, cexEditLineOut]
  intro h
  exact absurd h (by decide)

/-- C6: editing the stored purchase (2 units of item A, stock 2) to 3 units
yields stock 5, not the delta-semantics 2 + (3 − 2) = 3.  The subtraction of
the original units in `PurchasesPage.handleSave` is clobbered by the
wholesale item overwrite that follows, so the old units are double-counted. -/
theorem purchase_edit_stock_bug :
    ((applyOp (Op.savePurchase "newP" "w" "t" cexEditInput) cexDbEdit).items.map
        (fun it => (it.id, it.stock)))
      = [("A", 5)] ∧
    (2 : ℚ) + (3 - 2) = 3 ∧ ¬ ((5 : ℚ) = 3) := by
  refine ⟨?_, by norm_num, by norm_num⟩
  dsimp only [applyOp]
  unfold purchaseSaveOp
  rw [purchaseFormSave_cexEdit]
  norm_num [purchasesPageHandleSave, cexDbEdit, cexEditOldPurchase,
    cexEditPurchaseOut, cexEditItemsOut, cexEditLineOut, updateFirst, lineUnits]

end NanisInventory
